import Mathlib

/-!
Verification development for the uhubctl hub-discovery and port-control
engine (src/uhubctl.c, src/mkjson.c).  The C code is shallowly embedded:
pure helpers become Lean functions on Nat/Int/String/List, the stateful
discovery and pairing phases become explicit state-passing functions, and
the action orchestrator is modelled as a function producing the list of
observable events (control transfers and sleeps).
-/

namespace Uhubctl

/-! ### Constants from uhubctl.c -/

def MAX_HUB_PORTS : Nat := 14

def ALL_HUB_PORTS : Nat := (1 <<< MAX_HUB_PORTS) - 1

def USB_PORT_FEAT_POWER : Nat := 8

def POWER_KEEP : Int := -1

def POWER_OFF : Int := 0

def POWER_ON : Int := 1

def POWER_CYCLE : Int := 2

def POWER_TOGGLE : Int := 3

def POWER_FLASH : Int := 4

def USB_PORT_STAT_CONNECTION : Nat := 0x0001

def USB_PORT_STAT_ENABLE : Nat := 0x0002

def USB_PORT_STAT_SUSPEND : Nat := 0x0004

def USB_PORT_STAT_OVERCURRENT : Nat := 0x0008

def USB_PORT_STAT_RESET : Nat := 0x0010

def USB_PORT_STAT_POWER : Nat := 0x0100

def USB_PORT_STAT_LOW_SPEED : Nat := 0x0200

def USB_PORT_STAT_HIGH_SPEED : Nat := 0x0400

def USB_PORT_STAT_TEST : Nat := 0x0800

def USB_PORT_STAT_INDICATOR : Nat := 0x1000

def USB_SS_BCD : Nat := 0x0300

def USB_SS_PORT_STAT_POWER : Nat := 0x0200

def HUB_CHAR_LPSM : Nat := 0x0003

def HUB_CHAR_COMMON_LPSM : Nat := 0x0000

def HUB_CHAR_INDV_PORT_LPSM : Nat := 0x0001

def LIBUSB_REQUEST_CLEAR_FEATURE : Nat := 0x01

def LIBUSB_REQUEST_SET_FEATURE : Nat := 0x03

def MAX_HUBS : Nat := 128

/-! ### Port-status decoding (decode_port_status, uhubctl.c:1572-1591) -/

/-- Embedding of `decode_port_status` from uhubctl.c.  The status word is the
16-bit `wPortStatus`; `super_speed` selects the USB3 power mask. -/
def decode_port_status (port_status : Nat) (super_speed : Bool) : String :=
  if port_status = 0x0000 then "no_power"
  else
    if port_status &&& USB_PORT_STAT_OVERCURRENT ≠ 0 then "overcurrent"
    else if port_status &&& USB_PORT_STAT_RESET ≠ 0 then "resetting"
    else if ¬(port_status &&&
        (if super_speed then USB_SS_PORT_STAT_POWER else USB_PORT_STAT_POWER) ≠ 0) then
      "no_power"
    else if ¬(port_status &&& USB_PORT_STAT_CONNECTION ≠ 0) then "powered_no_device"
    else if ¬(port_status &&& USB_PORT_STAT_ENABLE ≠ 0) then "device_connected_not_enabled"
    else if port_status &&& USB_PORT_STAT_SUSPEND ≠ 0 then "device_suspended"
    else "device_active"

/-- The decoded-label cascade exactly as the claim states it (spec §4.2),
for comparison with the embedded `decode_port_status`. -/
def specDecodedLabel (S : Nat) (super_speed : Bool) : String :=
  if S &&& 0x0008 ≠ 0 then "overcurrent"
  else if S &&& 0x0010 ≠ 0 then "resetting"
  else if S &&& (if super_speed then 0x0200 else 0x0100) = 0 then "no_power"
  else if S &&& 0x0001 = 0 then "powered_no_device"
  else if S &&& 0x0002 = 0 then "device_connected_not_enabled"
  else if S &&& 0x0004 ≠ 0 then "device_suspended"
  else "device_active"

/-- Claim C3: port-status decoding is a pure function of the status word and
the super-speed flag, and the textual label follows exactly the priority
cascade overcurrent, resetting, no power, no device, not enabled, suspended,
active, with the power bit being 0x0200 for SuperSpeed hubs and 0x0100
otherwise. -/
theorem C3_decode_port_status_matches_claim (S : Nat) (super_speed : Bool) :
    decode_port_status S super_speed = specDecodedLabel S super_speed := by
  unfold decode_port_status specDecodedLabel
  unfold USB_PORT_STAT_OVERCURRENT USB_PORT_STAT_RESET USB_SS_PORT_STAT_POWER
    USB_PORT_STAT_POWER USB_PORT_STAT_CONNECTION USB_PORT_STAT_ENABLE USB_PORT_STAT_SUSPEND
  by_cases h0 : S = 0
  · subst h0
    cases super_speed <;> rfl
  · simp only [if_neg h0, ne_eq, not_not]

/-! ### Port list parsing (ports2bitmap, uhubctl.c:417-460) -/

/-- C `isspace` on the ASCII characters that can occur in a port list. -/
def isSpaceChar (c : Char) : Bool :=
  c == ' ' || c == '\t' || c == '\n' || c.toNat == 11 || c.toNat == 12 || c == '\r'

/-- Value of a digit string, as accumulated by C `atoi`. -/
def digitsVal (cs : List Char) : Int :=
  cs.foldl (fun a c => a * 10 + ((c.toNat : Int) - 48)) 0

/-- Embedding of C `atoi` restricted to the strings `ports2bitmap` feeds it:
skip leading whitespace, optional sign, then a maximal run of digits. -/
def atoiChars (cs0 : List Char) : Int :=
  let cs := cs0.dropWhile isSpaceChar
  match cs with
  | '-' :: rest => - digitsVal (rest.takeWhile Char.isDigit)
  | '+' :: rest => digitsVal (rest.takeWhile Char.isDigit)
  | _ => digitsVal (cs.takeWhile Char.isDigit)

/-- Split a character list at every comma, mirroring the `strchr`-driven
segmentation loop of `ports2bitmap` (a trailing comma yields an empty final
segment, and the empty input yields one empty segment). -/
def splitSegs : List Char → List (List Char)
  | [] => [[]]
  | c :: rest =>
    if c = ',' then [] :: splitSegs rest
    else
      match splitSegs rest with
      | s :: ss => (c :: s) :: ss
      | [] => [[c]]

/-- Bits contributed by the `for (i=a; i<=b; i++) ports |= 1 << (i-1);` loop. -/
def portRangeBits (a b : Nat) : Nat :=
  (List.range (b + 1 - a)).foldl (fun p k => p ||| (1 <<< (a + k - 1))) 0

/-- One iteration of the `ports2bitmap` loop body: the segment is truncated to
7 characters (the `char buf[8]` copy), parsed as `a` and optionally `a-b`,
validated, and merged into the accumulated bitmask.  `Except.error 1` models
the `exit(1)` calls. -/
def ports2bitmapSeg (seg : List Char) (ports : Nat) : Except Nat Nat :=
  let buf := seg.take 7
  let a : Int := atoiChars buf
  let b : Int :=
    match buf.dropWhile (fun c => c != '-') with
    | [] => a
    | _ :: afterDash => atoiChars afterDash
  if b < a then Except.error 1
  else if a ≤ 0 ∨ (MAX_HUB_PORTS : Int) < a ∨ b ≤ 0 ∨ (MAX_HUB_PORTS : Int) < b then
    Except.error 1
  else Except.ok (ports ||| portRangeBits a.toNat b.toNat)

/-- The comma loop of `ports2bitmap` over the pre-split segments. -/
def ports2bitmapGo : List (List Char) → Nat → Except Nat Nat
  | [], ports => Except.ok ports
  | seg :: rest, ports =>
    match ports2bitmapSeg seg ports with
    | Except.error e => Except.error e
    | Except.ok p => ports2bitmapGo rest p

/-- Embedding of `ports2bitmap` from uhubctl.c.  `Except.error 1` is the
usage-error `exit(1)` path. -/
def ports2bitmap (portlist : String) : Except Nat Nat :=
  ports2bitmapGo (splitSegs portlist.data) 0

/-- Claim C5: `ports2bitmap` maps comma lists of 1-based ports and ranges to
a bitmask: `"1"` yields `0b1`, `"1,3-5,11-13"` yields `0b1110000011101`, a
reversed range `"5-3"` is a usage error exiting with status 1, and a port
outside `1..14` such as `"15"` is a usage error exiting with status 1. -/
theorem C5_ports2bitmap_boundary_cases :
    ports2bitmap "1" = Except.ok 0b1 ∧
    ports2bitmap "1,3-5,11-13" = Except.ok 0b1110000011101 ∧
    ports2bitmap "5-3" = Except.error 1 ∧
    ports2bitmap "15" = Except.error 1 := by
  refine ⟨?_, ?_, ?_, ?_⟩ <;> rfl

/-! ### JSON string escaping (json_escape_string / json_escaped_len, mkjson.c:58-126) -/

/-- Low-nibble hex digit as printed by `sprintf("%04x", ...)` (lowercase). -/
def hexLowerDigit (n : Nat) : Nat := if n < 10 then 48 + n else 87 + n

/-- The per-character switch of `json_escape_string` (mkjson.c:104-121): the
list of bytes written for one input byte. -/
def json_escape_char (b : Nat) : List Nat :=
  if b = 0x22 then [0x5c, 0x22]
  else if b = 0x5c then [0x5c, 0x5c]
  else if b = 0x08 then [0x5c, 0x62]
  else if b = 0x0c then [0x5c, 0x66]
  else if b = 0x0a then [0x5c, 0x6e]
  else if b = 0x0d then [0x5c, 0x72]
  else if b = 0x09 then [0x5c, 0x74]
  else if b < 0x20 then [0x5c, 0x75, 0x30, 0x30, hexLowerDigit (b / 16), hexLowerDigit (b % 16)]
  else [b]

/-- Embedding of `json_escape_string` (mkjson.c:90-126): strings are byte
lists (C strings have no NUL byte inside), and the destination pointer writes
concatenate the per-character escapes in order. -/
def json_escape_string (s : List Nat) : List Nat := s.flatMap json_escape_char

/-- Embedding of `json_escaped_len` (mkjson.c:59-87). -/
def json_escaped_len (s : List Nat) : Nat :=
  s.foldl
    (fun len b =>
      if b = 0x22 ∨ b = 0x5c ∨ b = 0x08 ∨ b = 0x0c ∨ b = 0x0a ∨ b = 0x0d ∨ b = 0x09 then
        len + 2
      else if b < 0x20 then len + 6
      else len + 1)
    0

/-- The escaping rule exactly as the claim states it: quote, backslash,
backspace, form feed, newline, carriage return and tab become two-character
escapes, any other byte below 0x20 becomes the six-character escape
`\u00XX`, and all other bytes are copied unchanged. -/
def specEscapeChar (b : Nat) : List Nat :=
  if b = 34 then [92, 34]
  else if b = 92 then [92, 92]
  else if b = 8 then [92, 98]
  else if b = 12 then [92, 102]
  else if b = 10 then [92, 110]
  else if b = 13 then [92, 114]
  else if b = 9 then [92, 116]
  else if b < 32 then [92, 117, 48, 48, hexLowerDigit (b / 16), hexLowerDigit (b % 16)]
  else [b]

theorem json_escape_char_length (b : Nat) :
    (json_escape_char b).length =
      if b = 0x22 ∨ b = 0x5c ∨ b = 0x08 ∨ b = 0x0c ∨ b = 0x0a ∨ b = 0x0d ∨ b = 0x09 then 2
      else if b < 0x20 then 6
      else 1 := by
  unfold json_escape_char
  split_ifs <;> first | rfl | omega

theorem json_escaped_len_go (s : List Nat) : ∀ acc : Nat,
    s.foldl
      (fun len b =>
        if b = 0x22 ∨ b = 0x5c ∨ b = 0x08 ∨ b = 0x0c ∨ b = 0x0a ∨ b = 0x0d ∨ b = 0x09 then
          len + 2
        else if b < 0x20 then len + 6
        else len + 1)
      acc = acc + (json_escape_string s).length := by
  induction s with
  | nil => intro acc; simp [json_escape_string]
  | cons b s ih =>
    intro acc
    have hstep :
        (if b = 0x22 ∨ b = 0x5c ∨ b = 0x08 ∨ b = 0x0c ∨ b = 0x0a ∨ b = 0x0d ∨ b = 0x09 then
            acc + 2
          else if b < 0x20 then acc + 6
          else acc + 1) = acc + (json_escape_char b).length := by
      rw [json_escape_char_length]
      split_ifs <;> omega
    simp only [List.foldl_cons]
    rw [hstep, ih]
    simp only [json_escape_string, List.flatMap_cons, List.length_append]
    omega

/-- Claim C9: every byte of a JSON-emitted string is escaped so that quote,
backslash, backspace, form feed, newline, carriage return and tab become
two-character escapes, any other byte below 0x20 becomes a six-character
`\uXXXX` escape, other bytes are copied unchanged; moreover the separately
computed `json_escaped_len` equals the length of the escaped output. -/
theorem C9_json_escape_matches_claim (s : List Nat) :
    json_escape_string s = s.flatMap specEscapeChar ∧
    json_escaped_len s = (json_escape_string s).length := by
  constructor
  · have h : json_escape_char = specEscapeChar := by
      funext b
      rfl
    rw [json_escape_string, h]
  · rw [json_escaped_len, json_escaped_len_go s 0, Nat.zero_add]

/-! ### JSON status flags object (create_status_flags_json, uhubctl.c:1432-1486) -/

/-- The `flag_defs` table of `create_status_flags_json`: mask and key name,
with mask 0 marking entries never emitted for the given hub type. -/
def flag_defs (super_speed : Bool) : List (Nat × String) :=
  [(USB_PORT_STAT_CONNECTION, "connection"),
   (USB_PORT_STAT_ENABLE, "enable"),
   (USB_PORT_STAT_SUSPEND, "suspend"),
   (USB_PORT_STAT_OVERCURRENT, "overcurrent"),
   (USB_PORT_STAT_RESET, "reset"),
   (if super_speed then USB_SS_PORT_STAT_POWER else USB_PORT_STAT_POWER, "power"),
   (if super_speed then 0 else USB_PORT_STAT_LOW_SPEED, "lowspeed"),
   (if super_speed then 0 else USB_PORT_STAT_HIGH_SPEED, "highspeed"),
   (USB_PORT_STAT_TEST, "test"),
   (USB_PORT_STAT_INDICATOR, "indicator")]

/-- Embedding of `create_status_flags_json`: the key/value pairs written into
the flags object, in table order.  An entry is emitted iff its mask is
nonzero and the masked status bit is set, and the value written is always
the JSON literal `true`. -/
def create_status_flags_json (port_status : Nat) (super_speed : Bool) :
    List (String × Bool) :=
  (flag_defs super_speed).filterMap fun e =>
    if e.1 ≠ 0 ∧ port_status &&& e.1 ≠ 0 then some (e.2, true) else none

theorem mem_create_status_flags_json (S : Nat) (ss : Bool) (name : String) :
    ((name, true) ∈ create_status_flags_json S ss) ↔
      ∃ m, (m, name) ∈ flag_defs ss ∧ m ≠ 0 ∧ S &&& m ≠ 0 := by
  simp only [create_status_flags_json, List.mem_filterMap]
  constructor
  · rintro ⟨⟨m, nm⟩, hmem, hif⟩
    by_cases hc : m ≠ 0 ∧ S &&& m ≠ 0
    · refine ⟨m, ?_, hc.1, hc.2⟩
      simp only [if_pos hc] at hif
      obtain ⟨hnm, -⟩ := Prod.mk.injEq .. ▸ Option.some.inj hif
      exact hnm ▸ hmem
    · simp only [if_neg hc] at hif
      exact absurd hif (Option.noConfusion)
  · rintro ⟨m, hmem, h1, h2⟩
    exact ⟨(m, name), hmem, by simp [h1, h2]⟩

/-- Claim C10: in the JSON per-port flags object a key appears iff the
corresponding status bit is set, every emitted value is `true`, the power
key is tested against bit 0x0200 for SuperSpeed hubs and 0x0100 otherwise,
and the lowspeed / highspeed keys never appear for a SuperSpeed hub. -/
theorem C10_status_flags_json (S : Nat) (ss : Bool) :
    (((("connection" : String), true) ∈ create_status_flags_json S ss) ↔ S &&& 0x0001 ≠ 0) ∧
    (((("enable" : String), true) ∈ create_status_flags_json S ss) ↔ S &&& 0x0002 ≠ 0) ∧
    (((("suspend" : String), true) ∈ create_status_flags_json S ss) ↔ S &&& 0x0004 ≠ 0) ∧
    (((("overcurrent" : String), true) ∈ create_status_flags_json S ss) ↔ S &&& 0x0008 ≠ 0) ∧
    (((("reset" : String), true) ∈ create_status_flags_json S ss) ↔ S &&& 0x0010 ≠ 0) ∧
    (((("power" : String), true) ∈ create_status_flags_json S ss) ↔
      S &&& (if ss then 0x0200 else 0x0100) ≠ 0) ∧
    (((("test" : String), true) ∈ create_status_flags_json S ss) ↔ S &&& 0x0800 ≠ 0) ∧
    (((("indicator" : String), true) ∈ create_status_flags_json S ss) ↔ S &&& 0x1000 ≠ 0) ∧
    (ss = false →
      (((("lowspeed" : String), true) ∈ create_status_flags_json S ss) ↔ S &&& 0x0200 ≠ 0)) ∧
    (ss = false →
      (((("highspeed" : String), true) ∈ create_status_flags_json S ss) ↔ S &&& 0x0400 ≠ 0)) ∧
    (ss = true → ∀ v : Bool, (("lowspeed", v) ∉ create_status_flags_json S ss) ∧
      (("highspeed", v) ∉ create_status_flags_json S ss)) ∧
    (∀ p ∈ create_status_flags_json S ss, p.2 = true) := by
  have hval : ∀ p ∈ create_status_flags_json S ss, p.2 = true := by
    simp only [create_status_flags_json, List.mem_filterMap]
    rintro p ⟨e, -, hif⟩
    by_cases hc : e.1 ≠ 0 ∧ S &&& e.1 ≠ 0
    · simp only [if_pos hc] at hif
      cases Option.some.inj hif
      rfl
    · simp only [if_neg hc] at hif
      exact absurd hif (Option.noConfusion)
  have hss : ss = true → ∀ v : Bool, (("lowspeed", v) ∉ create_status_flags_json S ss) ∧
      (("highspeed", v) ∉ create_status_flags_json S ss) := by
    rintro rfl v
    constructor <;>
    · intro hmem
      have hv := hval _ hmem
      simp only at hv
      subst hv
      rw [mem_create_status_flags_json] at hmem
      obtain ⟨m, hm, h1, -⟩ := hmem
      simp [flag_defs, USB_PORT_STAT_CONNECTION, USB_PORT_STAT_ENABLE,
        USB_PORT_STAT_SUSPEND, USB_PORT_STAT_OVERCURRENT, USB_PORT_STAT_RESET,
        USB_SS_PORT_STAT_POWER, USB_PORT_STAT_TEST, USB_PORT_STAT_INDICATOR] at hm
      omega
  refine ⟨?_, ?_, ?_, ?_, ?_, ?_, ?_, ?_, ?_, ?_, hss, hval⟩ <;>
    (rw [mem_create_status_flags_json]
     cases ss <;>
       simp [flag_defs, USB_PORT_STAT_CONNECTION, USB_PORT_STAT_ENABLE,
         USB_PORT_STAT_SUSPEND, USB_PORT_STAT_OVERCURRENT, USB_PORT_STAT_RESET,
         USB_PORT_STAT_POWER, USB_SS_PORT_STAT_POWER, USB_PORT_STAT_LOW_SPEED,
         USB_PORT_STAT_HIGH_SPEED, USB_PORT_STAT_TEST, USB_PORT_STAT_INDICATOR])

/-! ### Hub records (struct hub_info, uhubctl.c:239-253) -/

/-- Embedding of `struct hub_info`.  `port_numbers` holds the `pn_len`
significant entries of the C array, so `pn_len` is its length.  The
`descriptor_strings` fields used by discovery and pairing (`serial`,
`description`) are inlined. -/
structure hub_info where
  bcd_usb : Nat
  super_speed : Bool
  nports : Nat
  lpsm : Nat
  actionable : Nat
  container_id : String
  vendor : String
  location : String
  bus : Nat
  port_numbers : List Nat
  serial : String
  description : String
deriving DecidableEq

instance : Inhabited hub_info :=
  ⟨{ bcd_usb := 0, super_speed := false, nports := 0, lpsm := 0, actionable := 0,
     container_id := "", vendor := "", location := "", bus := 0, port_numbers := [],
     serial := "", description := "" }⟩

/-- Read `hubs[k]` (array indexing on the hub array). -/
def nth : List hub_info → Nat → hub_info
  | [], _ => default
  | h :: _, 0 => h
  | _ :: t, n + 1 => nth t n

/-- Embedding of the physical-hub count loop of `usb_find_hubs`
(uhubctl.c:1223-1230): actionable hubs that are non-SuperSpeed, or every
actionable hub when `opt_exact` is set. -/
def hub_phys_count (opt_exact : Bool) (hubs : List hub_info) : Nat :=
  hubs.foldl
    (fun c h =>
      if h.actionable ≠ 0 ∧ (h.super_speed = false ∨ opt_exact = true) then c + 1 else c)
    0

/-! ### Option handling for --action (main, uhubctl.c:1909-1925) -/

/-- ASCII `tolower` on a byte, as used by `strcasecmp`. -/
def lowerByte (n : Nat) : Nat := if 65 ≤ n ∧ n ≤ 90 then n + 32 else n

/-- `strcasecmp(a, b) == 0`: case-insensitive string equality. -/
def strcaseEq (a b : String) : Bool :=
  a.data.map (fun c => lowerByte c.toNat) == b.data.map (fun c => lowerByte c.toNat)

/-- Embedding of the `case 'a'` branch of the option loop: five independent
`if` statements, each overwriting `opt_action` when its token matches.  There
is no fallback branch for an unrecognized token. -/
def applyActionOption (optarg : String) (cur : Int) : Int :=
  let a := if strcaseEq optarg "off" || strcaseEq optarg "0" then POWER_OFF else cur
  let a := if strcaseEq optarg "on" || strcaseEq optarg "1" then POWER_ON else a
  let a := if strcaseEq optarg "cycle" || strcaseEq optarg "2" then POWER_CYCLE else a
  let a := if strcaseEq optarg "toggle" || strcaseEq optarg "3" then POWER_TOGGLE else a
  let a := if strcaseEq optarg "flash" || strcaseEq optarg "4" then POWER_FLASH else a
  a

/-! ### Port power control and the action orchestrator (uhubctl.c:781-824, 2040-2204)

The orchestrator is modelled as a function producing the list of observable
events: port-power control transfers and sleeps.  `set_port_status` is
modelled on its control-transfer fallback path (`set_port_status_libusb`),
i.e. the non-Linux build or a kernel without the sysfs disable file. -/

/-- Observable events of a run: a class control transfer
(`bRequest`, `wValue` feature, `wIndex` port), or a sleep in milliseconds. -/
inductive Ev where
  | transfer (request : Nat) (feature : Nat) (port : Nat)
  | sleep (ms : Nat)
deriving DecidableEq

/-- The `while (repeat-- > 0)` loop of `set_port_status_libusb`
(uhubctl.c:788-800): one transfer per iteration, with a sleep of `wait`
milliseconds between consecutive iterations. -/
def powerLoop (request feature port wait : Nat) : Nat → List Ev
  | 0 => []
  | n + 1 =>
    Ev.transfer request feature port ::
      (if 0 < n then Ev.sleep wait :: powerLoop request feature port wait n
       else powerLoop request feature port wait n)

/-- Embedding of `set_port_status_libusb` (uhubctl.c:781-803):
`SET_FEATURE` once when turning on, `CLEAR_FEATURE` `opt_repeat` times with
`opt_wait` ms between attempts when turning off. -/
def set_port_status_libusb (opt_repeat opt_wait port : Nat) (power_on : Bool) : List Ev :=
  powerLoop (if power_on then LIBUSB_REQUEST_SET_FEATURE else LIBUSB_REQUEST_CLEAR_FEATURE)
    USB_PORT_FEAT_POWER port opt_wait (if power_on then 1 else opt_repeat)

/-- Option set consumed by the orchestrator. -/
structure Opts where
  opt_action : Int
  opt_ports : Nat
  opt_repeat : Nat
  opt_wait : Nat
  opt_delay_ms : Nat
  opt_exact : Bool
deriving DecidableEq

/-- `set_port_status` on the libusb fallback path (sysfs absent/disabled). -/
def set_port_status (o : Opts) (port : Nat) (power_on : Bool) : List Ev :=
  set_port_status_libusb o.opt_repeat o.opt_wait port power_on

def power_mask_of (ss : Bool) : Nat :=
  if ss then USB_SS_PORT_STAT_POWER else USB_PORT_STAT_POWER

/-- The per-port loop of the action phase (uhubctl.c:2114-2144).  `oracle`
supplies the status word returned by `get_port_status` for phase `k`,
hub index `i`, port `port`. -/
def portActions (o : Opts) (oracle : Nat → Nat → Nat → Nat) (k i : Nat)
    (h : hub_info) : List Ev :=
  (List.range h.nports).flatMap fun p0 =>
    let port := p0 + 1
    if (1 <<< (port - 1)) &&& (((1 <<< h.nports) - 1) &&& o.opt_ports) ≠ 0 then
      let port_status := oracle k i port
      let is_on : Bool := port_status &&& power_mask_of h.super_speed != 0
      let should_be_on : Bool :=
        if o.opt_action = POWER_FLASH then k == 0 else k == 1
      let should : Bool := if o.opt_action = POWER_TOGGLE then !is_on else should_be_on
      if is_on ≠ should then set_port_status o port should else []
    else []

/-- One hub's slice of a phase, including the 150 ms SuperSpeed settle after
the off phase (uhubctl.c:2146-2147). -/
def hubAction (o : Opts) (oracle : Nat → Nat → Nat → Nat) (k i : Nat)
    (h : hub_info) : List Ev :=
  if h.actionable = 0 then []
  else
    portActions o oracle k i h ++
      (if k = 0 ∧ h.super_speed = true then [Ev.sleep 150] else [])

/-- One iteration of the outer `for (k = 0; k < 2; k++)` loop
(uhubctl.c:2069-2203), including its `continue` guards and the cycle/flash
delay after the off phase. -/
def phaseEvents (o : Opts) (hubs : List hub_info) (oracle : Nat → Nat → Nat → Nat)
    (k : Nat) : List Ev :=
  if (k = 0 ∧ o.opt_action = POWER_ON) ∨ (k = 1 ∧ o.opt_action = POWER_OFF) ∨
      (k = 1 ∧ o.opt_action = POWER_TOGGLE) then []
  else
    ((List.range hubs.length).flatMap fun i => hubAction o oracle k i (nth hubs i)) ++
      (if k = 0 ∧ (o.opt_action = POWER_CYCLE ∨ o.opt_action = POWER_FLASH) then
        [Ev.sleep o.opt_delay_ms]
      else [])

/-- Embedding of `main` after `usb_find_hubs` returns (uhubctl.c:2028-2205):
exit 1 if no physical hub is actionable; exit 1 if more than one physical hub
is actionable and an action other than keep was requested; otherwise run the
two-phase action loop (status printing emits no power events). -/
def main_after_find (o : Opts) (hubs : List hub_info)
    (oracle : Nat → Nat → Nat → Nat) : Nat × List Ev :=
  let pc := hub_phys_count o.opt_exact hubs
  if pc = 0 then (1, [])
  else if 1 < pc ∧ o.opt_action ≠ POWER_KEEP then (1, [])
  else if o.opt_action = POWER_KEEP then (0, [])
  else (0, phaseEvents o hubs oracle 0 ++ phaseEvents o hubs oracle 1)

/-- Claim C2: if the physical-hub count exceeds 1 and the action is not
keep, the program exits with code 1 without issuing any port-power control
transfer (the event list is empty). -/
theorem C2_multiple_hubs_refused (o : Opts) (hubs : List hub_info)
    (oracle : Nat → Nat → Nat → Nat)
    (hpc : 1 < hub_phys_count o.opt_exact hubs) (ha : o.opt_action ≠ POWER_KEEP) :
    main_after_find o hubs oracle = (1, []) := by
  unfold main_after_find
  rw [if_neg (by omega), if_pos ⟨hpc, ha⟩]

/-- A plain USB 2.0 PPPS hub fixture. -/
def hubFixA : hub_info :=
  { bcd_usb := 0x0200, super_speed := false, nports := 4, lpsm := 1, actionable := 1,
    container_id := "", vendor := "2001:f103", location := "1-1", bus := 1,
    port_numbers := [1], serial := "", description := "2001:f103, USB 2.00, 4 ports, ppps" }

/-- A second unrelated USB 2.0 PPPS hub fixture. -/
def hubFixB : hub_info :=
  { bcd_usb := 0x0200, super_speed := false, nports := 4, lpsm := 1, actionable := 1,
    container_id := "", vendor := "05e3:0608", location := "1-2", bus := 1,
    port_numbers := [2], serial := "", description := "05e3:0608, USB 2.00, 4 ports, ppps" }

theorem C2_multiple_hubs_refused_witness :
    1 < hub_phys_count false [hubFixA, hubFixB] ∧
      main_after_find
        { opt_action := POWER_OFF, opt_ports := ALL_HUB_PORTS, opt_repeat := 1,
          opt_wait := 20, opt_delay_ms := 2000, opt_exact := false }
        [hubFixA, hubFixB] (fun _ _ _ => 0) = (1, []) :=
  ⟨by decide,
   C2_multiple_hubs_refused _ _ _ (by decide) (by decide)⟩

/-! ### Counting events for the repeat policy (claim C4) -/

/-- Number of control transfers with the given `bRequest` in an event list. -/
def countReq (req : Nat) : List Ev → Nat
  | [] => 0
  | Ev.transfer q _ _ :: rest => (if q = req then 1 else 0) + countReq req rest
  | Ev.sleep _ :: rest => countReq req rest

/-- The subsequence of sleep events in an event list. -/
def sleepEvents : List Ev → List Ev
  | [] => []
  | Ev.transfer _ _ _ :: rest => sleepEvents rest
  | Ev.sleep m :: rest => Ev.sleep m :: sleepEvents rest

theorem powerLoop_spec (req feat p w : Nat) (hreq : req ≠ LIBUSB_REQUEST_SET_FEATURE) :
    ∀ n, countReq req (powerLoop req feat p w n) = n ∧
      countReq LIBUSB_REQUEST_SET_FEATURE (powerLoop req feat p w n) = 0 ∧
      sleepEvents (powerLoop req feat p w n) = List.replicate (n - 1) (Ev.sleep w) := by
  intro n
  induction n with
  | zero => exact ⟨rfl, rfl, rfl⟩
  | succ n ih =>
    obtain ⟨ih1, ih2, ih3⟩ := ih
    by_cases hn : 0 < n
    · refine ⟨?_, ?_, ?_⟩
      · simp [powerLoop, countReq, hn, ih1]
        omega
      · simp [powerLoop, countReq, hn, ih2, hreq]
      · have hrepl : n + 1 - 1 = (n - 1) + 1 := by omega
        simp [powerLoop, sleepEvents, hn, ih3, hrepl, List.replicate_succ]
    · have hn0 : n = 0 := by omega
      subst hn0
      exact ⟨by simp [powerLoop, countReq], by simp [powerLoop, countReq, hreq],
        by simp [powerLoop, sleepEvents]⟩

/-- Fixture for the off-with-repeat scenario: one USB 2.0 PPPS hub with a
single port. -/
def hubFixC : hub_info :=
  { bcd_usb := 0x0200, super_speed := false, nports := 1, lpsm := 1, actionable := 1,
    container_id := "", vendor := "2001:f103", location := "1-1", bus := 1,
    port_numbers := [1], serial := "", description := "2001:f103, USB 2.00, 1 ports, ppps" }

/-- Claim C4: the libusb off path issues CLEAR_FEATURE(PORT_POWER) `repeat`
times with `wait` ms sleeps between consecutive attempts; the on path issues
exactly one SET_FEATURE(PORT_POWER); and an off action with repeat = 3,
wait = 10 against a port that stays on issues exactly three CLEAR_FEATURE
transfers and never the on direction. -/
theorem C4_repeat_policy :
    (∀ r w p, countReq LIBUSB_REQUEST_CLEAR_FEATURE (set_port_status_libusb r w p false) = r ∧
      countReq LIBUSB_REQUEST_SET_FEATURE (set_port_status_libusb r w p false) = 0 ∧
      sleepEvents (set_port_status_libusb r w p false) = List.replicate (r - 1) (Ev.sleep w)) ∧
    (∀ r w p, set_port_status_libusb r w p true =
      [Ev.transfer LIBUSB_REQUEST_SET_FEATURE USB_PORT_FEAT_POWER p]) ∧
    (main_after_find
        { opt_action := POWER_OFF, opt_ports := 1, opt_repeat := 3, opt_wait := 10,
          opt_delay_ms := 2000, opt_exact := false }
        [hubFixC] (fun _ _ _ => 0x0103) =
      (0, [Ev.transfer LIBUSB_REQUEST_CLEAR_FEATURE USB_PORT_FEAT_POWER 1, Ev.sleep 10,
           Ev.transfer LIBUSB_REQUEST_CLEAR_FEATURE USB_PORT_FEAT_POWER 1, Ev.sleep 10,
           Ev.transfer LIBUSB_REQUEST_CLEAR_FEATURE USB_PORT_FEAT_POWER 1]) ∧
      countReq LIBUSB_REQUEST_SET_FEATURE
        (main_after_find
          { opt_action := POWER_OFF, opt_ports := 1, opt_repeat := 3, opt_wait := 10,
            opt_delay_ms := 2000, opt_exact := false }
          [hubFixC] (fun _ _ _ => 0x0103)).2 = 0) := by
  refine ⟨?_, ?_, by decide, by decide⟩
  · intro r w p
    exact powerLoop_spec LIBUSB_REQUEST_CLEAR_FEATURE USB_PORT_FEAT_POWER p w (by decide) r
  · intro r w p
    rfl

/-- Claim C8 (counterexample): the unrecognized action token "bogus" is not
a usage error.  `opt_action` keeps its previous value `POWER_KEEP`, the run
proceeds into discovery, and with one hub present the process exits 0 after
printing status — not 1 before discovery as the claim states. -/
theorem C8_counterexample :
    applyActionOption "bogus" POWER_KEEP = POWER_KEEP ∧
    (main_after_find
      { opt_action := applyActionOption "bogus" POWER_KEEP, opt_ports := ALL_HUB_PORTS,
        opt_repeat := 1, opt_wait := 20, opt_delay_ms := 2000, opt_exact := false }
      [hubFixA] (fun _ _ _ => 0)).1 = 0 :=
  ⟨by decide, by decide⟩

/-- Claim C8 (amended): an action token that matches none of the recognized
tokens (case-insensitively) is silently ignored by the `case 'a'` branch:
`opt_action` keeps its previous value and no usage error is raised. -/
theorem C8_unknown_action_ignored (tok : String) (cur : Int)
    (h : strcaseEq tok "off" = false ∧ strcaseEq tok "0" = false ∧
         strcaseEq tok "on" = false ∧ strcaseEq tok "1" = false ∧
         strcaseEq tok "cycle" = false ∧ strcaseEq tok "2" = false ∧
         strcaseEq tok "toggle" = false ∧ strcaseEq tok "3" = false ∧
         strcaseEq tok "flash" = false ∧ strcaseEq tok "4" = false) :
    applyActionOption tok cur = cur := by
  obtain ⟨h1, h2, h3, h4, h5, h6, h7, h8, h9, h10⟩ := h
  simp [applyActionOption, h1, h2, h3, h4, h5, h6, h7, h8, h9, h10]

theorem C8_unknown_action_ignored_witness :
    (strcaseEq "nonsense" "off" = false ∧ strcaseEq "nonsense" "0" = false ∧
     strcaseEq "nonsense" "on" = false ∧ strcaseEq "nonsense" "1" = false ∧
     strcaseEq "nonsense" "cycle" = false ∧ strcaseEq "nonsense" "2" = false ∧
     strcaseEq "nonsense" "toggle" = false ∧ strcaseEq "nonsense" "3" = false ∧
     strcaseEq "nonsense" "flash" = false ∧ strcaseEq "nonsense" "4" = false) ∧
    applyActionOption "nonsense" POWER_ON = POWER_ON :=
  ⟨by decide, C8_unknown_action_ignored "nonsense" POWER_ON (by decide)⟩

/-! ### String helpers (strstr, strncasecmp, location composition) -/

/-- `strstr(hay, needle) != NULL`: substring containment. -/
def strstrB (hay needle : String) : Bool :=
  (List.range (hay.data.length + 1)).any fun i => needle.data.isPrefixOf (hay.data.drop i)

/-- `strncasecmp(pre, s, strlen(pre)) == 0`: case-insensitive prefix match. -/
def strncaseEq (pre s : String) : Bool :=
  (s.data.take pre.data.length).map (fun c => lowerByte c.toNat) ==
    pre.data.map (fun c => lowerByte c.toNat)

/-- Location string composition of `get_hub_info` (uhubctl.c:594-602):
`"B"` for a root hub, then `-p1.p2...` down the chain. -/
def mkLocation (bus : Nat) (pns : List Nat) : String :=
  (List.range pns.length).foldl
    (fun s k => s ++ (if k = 0 then "-" else ".") ++ toString (pns.getD k 0))
    (toString bus)

/-! ### Raw device data consumed by discovery

A `RawDev` packages what libusb reports for one enumerated device: the
descriptor fields `get_hub_info` decodes, whether the relevant reads succeed,
and the composed description from `get_device_description`. -/

structure RawDev where
  is_hub : Bool
  info_ok : Bool
  desc_ok : Bool
  bcd_usb : Nat
  hub_char0 : Nat
  nports : Nat
  vendor : String
  container_id : String
  bus : Nat
  port_numbers : List Nat
  serial : String
  description : String
deriving DecidableEq

/-- The Logical Power Switching Mode computation of `get_hub_info`
(uhubctl.c:642-652): bits 0-1 of `wHubCharacteristics[0]`; a single-port
GANGED hub is reclassified as PER_PORT; on a Raspberry Pi 4B a GANGED hub
with vendor 2109:3431 is forced to PER_PORT. -/
def get_hub_lpsm (is_rpi_4b : Bool) (hub_char0 nports : Nat) (vendor : String) : Nat :=
  let lpsm := hub_char0 &&& HUB_CHAR_LPSM
  let lpsm :=
    if lpsm = HUB_CHAR_COMMON_LPSM ∧ nports = 1 then HUB_CHAR_INDV_PORT_LPSM else lpsm
  if is_rpi_4b = true ∧ lpsm = HUB_CHAR_COMMON_LPSM ∧ strcaseEq vendor "2109:3431" = true then
    HUB_CHAR_INDV_PORT_LPSM
  else lpsm

/-- Embedding of `get_hub_info` (uhubctl.c:552-682) on a device whose
descriptor reads succeed: fills a `hub_info` record with `actionable = 0`,
including the Raspberry Pi 4B / Pi 5 container-id overrides. -/
def get_hub_info (is_rpi_4b is_rpi_5 : Bool) (d : RawDev) : hub_info :=
  let ss := USB_SS_BCD ≤ d.bcd_usb
  let lpsm := get_hub_lpsm is_rpi_4b d.hub_char0 d.nports d.vendor
  let cid :=
    if is_rpi_4b = true ∧ d.container_id = "" ∧ strcaseEq d.vendor "1d6b:0003" = true ∧
        d.port_numbers = [] ∧ d.nports = 4 ∧ d.bcd_usb = USB_SS_BCD then
      "5cf3ee30d5074925b001802d79434c30"
    else d.container_id
  let cid :=
    if is_rpi_5 = true ∧ cid = "" ∧ lpsm = HUB_CHAR_INDV_PORT_LPSM ∧ d.port_numbers = [] ∧
        ((strcaseEq d.vendor "1d6b:0002" = true ∧ d.nports = 2 ∧ ss = false) ∨
         (strcaseEq d.vendor "1d6b:0003" = true ∧ d.nports = 1 ∧ ss = true)) then
      "Raspberry Pi 5 Fake Container Id"
    else cid
  { bcd_usb := d.bcd_usb, super_speed := ss, nports := d.nports, lpsm := lpsm,
    actionable := 0, container_id := cid, vendor := d.vendor,
    location := mkLocation d.bus d.port_numbers, bus := d.bus,
    port_numbers := d.port_numbers, serial := d.serial, description := d.description }

/-! ### USB2/USB3 dual-pairing (usb_find_hubs, uhubctl.c:1120-1221)

The candidate filter and the score ladder of the inner `j` loop, then the
outer `i` loop promoting the best match's `actionable` flag from 0 to 2. -/

/-- `super_speed` as the C int `s1`/`s2`. -/
def ssInt (b : Bool) : Nat := if b then 1 else 0

/-- Path similarity level 2 (uhubctl.c:1186): same length, identical after
dropping the topmost level. -/
def pathCond2 (hi hj : hub_info) : Prop :=
  1 ≤ hi.port_numbers.length ∧ hi.port_numbers.length = hj.port_numbers.length ∧
    hi.port_numbers.drop 1 = hj.port_numbers.drop 1

/-- Path similarity level 3, Raspberry Pi 4B (uhubctl.c:1194):
`l1 + s1 = l2 + s2`, `l1 ≥ s2`, matching suffix. -/
def pathCond3 (hi hj : hub_info) : Prop :=
  hi.port_numbers.length + ssInt hi.super_speed =
      hj.port_numbers.length + ssInt hj.super_speed ∧
    ssInt hj.super_speed ≤ hi.port_numbers.length ∧
    hi.port_numbers.drop (ssInt hj.super_speed) = hj.port_numbers.drop (ssInt hi.super_speed)

/-- Path similarity level 4 (uhubctl.c:1201): identical full path. -/
def pathCond4 (hi hj : hub_info) : Prop :=
  hi.port_numbers.length = hj.port_numbers.length ∧ hi.port_numbers = hj.port_numbers

/-- Level 5 extra condition (uhubctl.c:1207): `bus1 - s1 == bus2 - s2`. -/
def busCond5 (hi hj : hub_info) : Prop :=
  (hi.bus : Int) - ssInt hi.super_speed = (hj.bus : Int) - ssInt hj.super_speed

/-- The candidate filter of the inner loop (uhubctl.c:1138-1167): opposite
super-speed type, non-empty matching container id, same port count (or a
small compound device), and no conflicting serial numbers. -/
def dualCandidate (hi hj : hub_info) : Prop :=
  hi.super_speed ≠ hj.super_speed ∧
  hj.container_id ≠ "" ∧
  hi.container_id = hj.container_id ∧
  (hi.nports = hj.nports ∨ hi.nports + hj.nports ≤ 3) ∧
  (hi.serial = "" ∨ hj.serial = "" ∨ hi.serial = hj.serial)

instance (hi hj : hub_info) : Decidable (pathCond2 hi hj) := by
  unfold pathCond2; exact inferInstance

instance (hi hj : hub_info) : Decidable (pathCond3 hi hj) := by
  unfold pathCond3; exact inferInstance

instance (hi hj : hub_info) : Decidable (pathCond4 hi hj) := by
  unfold pathCond4; exact inferInstance

instance (hi hj : hub_info) : Decidable (busCond5 hi hj) := by
  unfold busCond5; exact inferInstance

instance (hi hj : hub_info) : Decidable (dualCandidate hi hj) := by
  unfold dualCandidate; exact inferInstance

/-- The score a candidate `j` reaches on the ladder (1 to 5, uhubctl.c:1169-1213). -/
def dualScore (is_rpi_4b : Bool) (hi hj : hub_info) : Nat :=
  if pathCond4 hi hj then (if busCond5 hi hj then 5 else 4)
  else if is_rpi_4b = true ∧ pathCond3 hi hj then 3
  else if pathCond2 hi hj then 2
  else 1

/-- One guarded update `if (cond && best_score < k) { best_score = k; best_match = j; }`. -/
def ladderStep (cond : Prop) [Decidable cond] (k : Int) (j : Nat) (st : Int × Int) :
    Int × Int :=
  if cond ∧ st.1 < k then (k, (j : Int)) else st

/-- One full iteration of the inner `j` loop (uhubctl.c:1131-1213) on state
`(best_score, best_match)`: the candidate guards (`continue`s), then the
score ladder, with level 5 nested inside the identical-path branch. -/
def dualLadder (is_rpi_4b : Bool) (hi hj : hub_info) (j : Nat) (st : Int × Int) :
    Int × Int :=
  if hi.super_speed = hj.super_speed then st
  else if hj.container_id = "" then st
  else if hi.container_id ≠ hj.container_id then st
  else if hi.nports ≠ hj.nports ∧ 3 < hi.nports + hj.nports then st
  else if hi.serial ≠ "" ∧ hj.serial ≠ "" ∧ hi.serial ≠ hj.serial then st
  else
    let st1 := ladderStep True 1 j st
    let st2 := ladderStep (pathCond2 hi hj) 2 j st1
    let st3 := ladderStep (is_rpi_4b = true ∧ pathCond3 hi hj) 3 j st2
    if pathCond4 hi hj then
      ladderStep (busCond5 hi hj) 5 j (ladderStep True 4 j st3)
    else st3

/-- The inner `j` loop over the first `n` hub indices, from the initial
state `best_score = best_match = -1`. -/
def scanUpTo (is_rpi_4b : Bool) (hubs : List hub_info) (i n : Nat) : Int × Int :=
  (List.range n).foldl
    (fun st j => if j = i then st else dualLadder is_rpi_4b (nth hubs i) (nth hubs j) j st)
    (-1, -1)

/-- The full inner `j` loop of `usb_find_hubs` for primary hub `i`. -/
def innerScan (is_rpi_4b : Bool) (hubs : List hub_info) (i : Nat) : Int × Int :=
  scanUpTo is_rpi_4b hubs i hubs.length

/-- One iteration of the outer `i` loop (uhubctl.c:1122-1221): skip hubs that
are not primary (`actionable != 1`) or have an empty container id; otherwise
run the inner scan and promote the best match from `actionable = 0` to 2. -/
def pairStep (is_rpi_4b : Bool) (hubs : List hub_info) (i : Nat) : List hub_info :=
  if (nth hubs i).actionable ≠ 1 then hubs
  else if (nth hubs i).container_id = "" then hubs
  else
    if 0 ≤ (innerScan is_rpi_4b hubs i).2 then
      if (nth hubs ((innerScan is_rpi_4b hubs i).2.toNat)).actionable = 0 then
        hubs.set ((innerScan is_rpi_4b hubs i).2.toNat)
          { nth hubs ((innerScan is_rpi_4b hubs i).2.toNat) with actionable := 2 }
      else hubs
    else hubs

/-- The USB2/3 duality pass of `usb_find_hubs` (the `if (!opt_exact)` block). -/
def pairPhase (is_rpi_4b : Bool) (hubs : List hub_info) : List hub_info :=
  (List.range hubs.length).foldl (pairStep is_rpi_4b) hubs

/-! ### Selection filters and the discovery loop (usb_find_hubs, uhubctl.c:1038-1119) -/

/-- Outcome of the attached-device search loop (uhubctl.c:1063-1089). -/
inductive SearchOutcome where
  | found (port : Nat)
  | aborted
  | nomatch
deriving DecidableEq

/-- The attached-device search loop for one hub: scan all devices in
enumeration order for an immediate child (same bus, path one longer with the
hub's path as prefix) whose description contains the search string, stopping
at the first match; a failing description read aborts the search. -/
def searchScan (opt_search : String) (bus : Nat) (pns : List Nat) :
    List RawDev → SearchOutcome
  | [] => SearchOutcome.nomatch
  | u :: rest =>
    if u.bus ≠ bus then searchScan opt_search bus pns rest
    else if u.port_numbers.length = pns.length + 1 ∧ u.port_numbers.take pns.length = pns then
      if u.desc_ok = false then SearchOutcome.aborted
      else if strstrB u.description opt_search then
        SearchOutcome.found (u.port_numbers.getLastD 0)
      else searchScan opt_search bus pns rest
    else searchScan opt_search bus pns rest

/-- The filter options of §4.5. -/
structure FilterOpts where
  opt_location : String
  opt_level : Int
  opt_vendor : String
  opt_search : String
  opt_searchhub : String
deriving DecidableEq

/-- The `actionable` value computed by the filter block of `usb_find_hubs`
(uhubctl.c:1062-1110) for one hub record. -/
def filter_act (fo : FilterOpts) (devs : List RawDev) (info : hub_info) : Nat :=
  let act :=
    if fo.opt_search ≠ "" then
      match searchScan fo.opt_search info.bus info.port_numbers devs with
      | SearchOutcome.found _ => 1
      | _ => 0
    else 1
  let act :=
    if fo.opt_searchhub ≠ "" ∧ strstrB info.description fo.opt_searchhub = false then 0
    else act
  let act :=
    if fo.opt_location ≠ "" ∧ strcaseEq fo.opt_location info.location = false then 0 else act
  let act :=
    if 0 < fo.opt_level ∧ fo.opt_level ≠ (info.port_numbers.length + 1 : Int) then 0 else act
  if fo.opt_vendor ≠ "" ∧ strncaseEq fo.opt_vendor info.vendor = false then 0 else act

/-- The `opt_ports &= 1 << (port - 1)` side effect of the attached-device
search (uhubctl.c:1084). -/
def filter_ports (fo : FilterOpts) (devs : List RawDev) (info : hub_info)
    (opt_ports : Nat) : Nat :=
  if fo.opt_search ≠ "" then
    match searchScan fo.opt_search info.bus info.port_numbers devs with
    | SearchOutcome.found p => opt_ports &&& (1 <<< (p - 1))
    | _ => opt_ports
  else opt_ports

/-- The discovery loop of `usb_find_hubs` (uhubctl.c:1045-1119): walk the
device list, keep hubs whose info reads succeed and (unless `force`) whose
LPSM is per-port, apply the filters, and append to the hub array (capped at
MAX_HUBS; reaching the cap stops the walk). -/
def usb_find_hubs_scan (is_rpi_4b is_rpi_5 force : Bool) (fo : FilterOpts)
    (devs : List RawDev) :
    List RawDev → List hub_info → Nat → List hub_info × Nat
  | [], hubs, ports => (hubs, ports)
  | d :: rest, hubs, ports =>
    if d.is_hub = false then usb_find_hubs_scan is_rpi_4b is_rpi_5 force fo devs rest hubs ports
    else if d.info_ok = false then
      usb_find_hubs_scan is_rpi_4b is_rpi_5 force fo devs rest hubs ports
    else
      let info := get_hub_info is_rpi_4b is_rpi_5 d
      if info.lpsm ≠ HUB_CHAR_INDV_PORT_LPSM ∧ force = false then
        usb_find_hubs_scan is_rpi_4b is_rpi_5 force fo devs rest hubs ports
      else
        let h := { info with actionable := filter_act fo devs info }
        let ports2 := filter_ports fo devs info ports
        if hubs.length < MAX_HUBS then
          usb_find_hubs_scan is_rpi_4b is_rpi_5 force fo devs rest (hubs ++ [h]) ports2
        else (hubs, ports2)

/-- Discovery and filtering: the part of `usb_find_hubs` before the
duality pass.  Returns the hub array and the (possibly narrowed) `opt_ports`. -/
def usb_find_hubs_filter (is_rpi_4b is_rpi_5 force : Bool) (fo : FilterOpts)
    (opt_ports0 : Nat) (devs : List RawDev) : List hub_info × Nat :=
  usb_find_hubs_scan is_rpi_4b is_rpi_5 force fo devs devs [] opt_ports0

/-- Embedding of `usb_find_hubs`: discovery, filtering, then (unless
`opt_exact`) the USB2/3 duality pass. -/
def usb_find_hubs (is_rpi_4b is_rpi_5 force opt_exact : Bool) (fo : FilterOpts)
    (opt_ports0 : Nat) (devs : List RawDev) : List hub_info × Nat :=
  let r := usb_find_hubs_filter is_rpi_4b is_rpi_5 force fo opt_ports0 devs
  (if opt_exact = false then pairPhase is_rpi_4b r.1 else r.1, r.2)

/-- Filter options with every filter disabled. -/
def noFilter : FilterOpts :=
  { opt_location := "", opt_level := 0, opt_vendor := "", opt_search := "",
    opt_searchhub := "" }

/-! ### Index and frame lemmas for the hub array -/

theorem nth_nil (k : Nat) : nth [] k = default := by cases k <;> rfl

theorem nth_default_of_le : ∀ (l : List hub_info) (k : Nat), l.length ≤ k → nth l k = default := by
  intro l
  induction l with
  | nil => intro k _; exact nth_nil k
  | cons h t ih =>
    intro k hk
    cases k with
    | zero => simp at hk
    | succ n => exact ih n (by simpa using hk)

theorem nth_set_self : ∀ (l : List hub_info) (b : Nat) (x : hub_info),
    b < l.length → nth (l.set b x) b = x := by
  intro l
  induction l with
  | nil => intro b x hb; simp at hb
  | cons h t ih =>
    intro b x hb
    cases b with
    | zero => rfl
    | succ n => exact ih n x (by simpa using hb)

theorem nth_set_ne : ∀ (l : List hub_info) (b : Nat) (x : hub_info) (k : Nat),
    k ≠ b → nth (l.set b x) k = nth l k := by
  intro l
  induction l with
  | nil => intro b x k _; rfl
  | cons h t ih =>
    intro b x k hk
    cases b with
    | zero =>
      cases k with
      | zero => exact absurd rfl hk
      | succ n => rfl
    | succ m =>
      cases k with
      | zero => rfl
      | succ n => exact ih m x n (fun he => hk (by rw [he]))

theorem nth_mem : ∀ (l : List hub_info) (k : Nat), k < l.length → nth l k ∈ l := by
  intro l
  induction l with
  | nil => intro k hk; simp at hk
  | cons h t ih =>
    intro k hk
    cases k with
    | zero => exact List.mem_cons_self h t
    | succ n => exact List.mem_cons_of_mem h (ih n (by simpa using hk))

theorem mem_nth : ∀ (l : List hub_info) (h : hub_info), h ∈ l →
    ∃ k, k < l.length ∧ nth l k = h := by
  intro l
  induction l with
  | nil => intro h hmem; simp at hmem
  | cons a t ih =>
    intro h hmem
    rcases List.mem_cons.mp hmem with rfl | hmem
    · exact ⟨0, by simp, rfl⟩
    · obtain ⟨k, hk, hnth⟩ := ih h hmem
      exact ⟨k + 1, by simpa using hk, hnth⟩

/-- The fields of a hub record that discovery fixes and pairing never
mutates (everything except `actionable`). -/
def hubKey (h : hub_info) :=
  (h.bcd_usb, h.super_speed, h.nports, h.lpsm, h.container_id, h.vendor, h.location,
   h.bus, h.port_numbers, h.serial, h.description)

theorem hubKey_update_actionable (h : hub_info) (a : Nat) :
    hubKey { h with actionable := a } = hubKey h := rfl

theorem hubKey_lpsm_eq {a b : hub_info} (h : hubKey a = hubKey b) : a.lpsm = b.lpsm := by
  simp only [hubKey, Prod.mk.injEq] at h
  exact h.2.2.2.1

theorem dualCandidate_congr {a a' b b' : hub_info}
    (ha : hubKey a = hubKey a') (hb : hubKey b = hubKey b') :
    dualCandidate a b = dualCandidate a' b' := by
  cases a; cases a'; cases b; cases b'
  simp only [hubKey, Prod.mk.injEq] at ha hb
  obtain ⟨rfl, rfl, rfl, rfl, rfl, rfl, rfl, rfl, rfl, rfl, rfl⟩ := ha
  obtain ⟨rfl, rfl, rfl, rfl, rfl, rfl, rfl, rfl, rfl, rfl, rfl⟩ := hb
  rfl

theorem dualScore_congr (is_rpi_4b : Bool) {a a' b b' : hub_info}
    (ha : hubKey a = hubKey a') (hb : hubKey b = hubKey b') :
    dualScore is_rpi_4b a b = dualScore is_rpi_4b a' b' := by
  cases a; cases a'; cases b; cases b'
  simp only [hubKey, Prod.mk.injEq] at ha hb
  obtain ⟨rfl, rfl, rfl, rfl, rfl, rfl, rfl, rfl, rfl, rfl, rfl⟩ := ha
  obtain ⟨rfl, rfl, rfl, rfl, rfl, rfl, rfl, rfl, rfl, rfl, rfl⟩ := hb
  rfl

theorem dualLadder_congr (is_rpi_4b : Bool) (j : Nat) (st : Int × Int) {a a' b b' : hub_info}
    (ha : hubKey a = hubKey a') (hb : hubKey b = hubKey b') :
    dualLadder is_rpi_4b a b j st = dualLadder is_rpi_4b a' b' j st := by
  cases a; cases a'; cases b; cases b'
  simp only [hubKey, Prod.mk.injEq] at ha hb
  obtain ⟨rfl, rfl, rfl, rfl, rfl, rfl, rfl, rfl, rfl, rfl, rfl⟩ := ha
  obtain ⟨rfl, rfl, rfl, rfl, rfl, rfl, rfl, rfl, rfl, rfl, rfl⟩ := hb
  rfl

theorem foldl_funext {α β : Type _} {f g : β → α → β} :
    ∀ (l : List α), (∀ x ∈ l, ∀ b, f b x = g b x) → ∀ b : β, l.foldl f b = l.foldl g b := by
  intro l
  induction l with
  | nil => intro _ b; rfl
  | cons a t ih =>
    intro h b
    simp only [List.foldl_cons]
    rw [h a (List.mem_cons_self a t)]
    exact ih (fun x hx b => h x (List.mem_cons_of_mem a hx) b) _

/-- Two hub arrays of the same length whose entries agree on every field
except `actionable`. -/
def sameKeys (l l' : List hub_info) : Prop :=
  l.length = l'.length ∧ ∀ k, hubKey (nth l k) = hubKey (nth l' k)

theorem sameKeys_refl (l : List hub_info) : sameKeys l l := ⟨rfl, fun _ => rfl⟩

theorem sameKeys_trans {l1 l2 l3 : List hub_info} (h1 : sameKeys l1 l2)
    (h2 : sameKeys l2 l3) : sameKeys l1 l3 :=
  ⟨h1.1.trans h2.1, fun k => (h1.2 k).trans (h2.2 k)⟩

theorem sameKeys_set (l : List hub_info) (b : Nat) (x : hub_info)
    (hb : b < l.length) (hx : hubKey x = hubKey (nth l b)) :
    sameKeys (l.set b x) l := by
  refine ⟨List.length_set .., fun k => ?_⟩
  by_cases hk : k = b
  · subst hk
    rw [nth_set_self l k x hb, hx]
  · rw [nth_set_ne l b x k hk]

theorem scanUpTo_congr (is_rpi_4b : Bool) (i n : Nat) {l l' : List hub_info}
    (h : sameKeys l l') : scanUpTo is_rpi_4b l i n = scanUpTo is_rpi_4b l' i n := by
  unfold scanUpTo
  refine foldl_funext _ (fun j _ st => ?_) _
  by_cases hj : j = i
  · simp [hj]
  · simp only [if_neg hj]
    exact dualLadder_congr is_rpi_4b j st (h.2 i) (h.2 j)

theorem innerScan_congr (is_rpi_4b : Bool) (i : Nat) {l l' : List hub_info}
    (h : sameKeys l l') : innerScan is_rpi_4b l i = innerScan is_rpi_4b l' i := by
  unfold innerScan
  rw [h.1]
  exact scanUpTo_congr is_rpi_4b i l'.length h

/-! ### Characterizing the score ladder -/

/-- One inner-loop iteration either leaves the state unchanged or, when `j`
is a candidate whose score beats the current best, records `(score, j)`. -/
theorem dualLadder_eq (is_rpi_4b : Bool) (hi hj : hub_info) (j : Nat) (st : Int × Int) :
    dualLadder is_rpi_4b hi hj j st =
      if dualCandidate hi hj ∧ st.1 < (dualScore is_rpi_4b hi hj : Int) then
        ((dualScore is_rpi_4b hi hj : Int), (j : Int))
      else st := by
  by_cases h1 : hi.super_speed = hj.super_speed
  · simp only [dualLadder]
    rw [if_pos h1, if_neg (fun hand => hand.1.1 h1)]
  by_cases h2 : hj.container_id = ""
  · simp only [dualLadder]
    rw [if_neg h1, if_pos h2, if_neg (fun hand => hand.1.2.1 h2)]
  by_cases h3 : hi.container_id = hj.container_id
  case neg =>
    simp only [dualLadder]
    rw [if_neg h1, if_neg h2, if_pos h3, if_neg (fun hand => h3 hand.1.2.2.1)]
  by_cases h4 : hi.nports = hj.nports ∨ hi.nports + hj.nports ≤ 3
  case neg =>
    have hg : hi.nports ≠ hj.nports ∧ 3 < hi.nports + hj.nports := by
      push_neg at h4
      exact ⟨h4.1, h4.2⟩
    have hc : ¬ dualCandidate hi hj := by
      rintro ⟨-, -, -, hc4, -⟩
      rcases hc4 with hc4 | hc4
      · exact hg.1 hc4
      · omega
    simp only [dualLadder]
    rw [if_neg h1, if_neg h2, if_neg (fun hne => hne h3), if_pos hg,
      if_neg (fun hand => hc hand.1)]
  by_cases h5 : hi.serial = "" ∨ hj.serial = "" ∨ hi.serial = hj.serial
  case neg =>
    push_neg at h5
    have hc : ¬ dualCandidate hi hj := by
      rintro ⟨-, -, -, -, hc5⟩
      rcases hc5 with h | h | h
      exacts [h5.1 h, h5.2.1 h, h5.2.2 h]
    have hg4 : ¬(hi.nports ≠ hj.nports ∧ 3 < hi.nports + hj.nports) := by
      rintro ⟨hne, hgt⟩
      rcases h4 with he | hle
      · exact hne he
      · omega
    simp only [dualLadder]
    rw [if_neg h1, if_neg h2, if_neg (fun hne => hne h3), if_neg hg4,
      if_pos ⟨h5.1, h5.2.1, h5.2.2⟩, if_neg (fun hand => hc hand.1)]
  case pos =>
    have hcand : dualCandidate hi hj := ⟨h1, h2, h3, h4, h5⟩
    have hg4 : ¬(hi.nports ≠ hj.nports ∧ 3 < hi.nports + hj.nports) := by
      rintro ⟨hne, hgt⟩
      rcases h4 with he | hle
      · exact hne he
      · omega
    have hg5 : ¬(hi.serial ≠ "" ∧ hj.serial ≠ "" ∧ hi.serial ≠ hj.serial) := by
      rintro ⟨hs1, hs2, hs3⟩
      rcases h5 with h | h | h
      exacts [hs1 h, hs2 h, hs3 h]
    simp only [dualLadder]
    rw [if_neg h1, if_neg h2, if_neg (fun hne => hne h3), if_neg hg4, if_neg hg5]
    rcases Decidable.em (pathCond4 hi hj) with c4 | c4 <;>
      rcases Decidable.em (busCond5 hi hj) with c5 | c5 <;>
      rcases Decidable.em (is_rpi_4b = true ∧ pathCond3 hi hj) with c3 | c3 <;>
      rcases Decidable.em (pathCond2 hi hj) with c2 | c2 <;>
      rcases Decidable.em (st.1 < 1) with b1 | b1 <;>
      rcases Decidable.em (st.1 < 2) with b2 | b2 <;>
      rcases Decidable.em (st.1 < 3) with b3 | b3 <;>
      rcases Decidable.em (st.1 < 4) with b4 | b4 <;>
      rcases Decidable.em (st.1 < 5) with b5 | b5 <;>
      first
        | omega
        | simp [dualScore, ladderStep, hcand, c4, c5, c3, c2, b1, b2, b3, b4, b5]

/-- `j` beats `i`'s running best iff it is a fresh candidate with a strictly
higher score. -/
def scanPred (hubs : List hub_info) (i j : Nat) : Prop :=
  j ≠ i ∧ dualCandidate (nth hubs i) (nth hubs j)

instance (hubs : List hub_info) (i j : Nat) : Decidable (scanPred hubs i j) := by
  unfold scanPred; exact inferInstance

def scanScore (is_rpi_4b : Bool) (hubs : List hub_info) (i j : Nat) : Nat :=
  dualScore is_rpi_4b (nth hubs i) (nth hubs j)

theorem scanStep_eq (is_rpi_4b : Bool) (hubs : List hub_info) (i n : Nat) (st : Int × Int) :
    (if n = i then st else dualLadder is_rpi_4b (nth hubs i) (nth hubs n) n st) =
      if scanPred hubs i n ∧ st.1 < (scanScore is_rpi_4b hubs i n : Int) then
        ((scanScore is_rpi_4b hubs i n : Int), (n : Int))
      else st := by
  by_cases hn : n = i
  · rw [if_pos hn, if_neg]
    rintro ⟨⟨hne, -⟩, -⟩
    exact hne hn
  · rw [if_neg hn, dualLadder_eq]
    unfold scanPred scanScore
    by_cases hc : dualCandidate (nth hubs i) (nth hubs n)
    · simp [hc, hn]
    · simp [hc]

theorem scanUpTo_succ (is_rpi_4b : Bool) (hubs : List hub_info) (i n : Nat) :
    scanUpTo is_rpi_4b hubs i (n + 1) =
      (if n = i then scanUpTo is_rpi_4b hubs i n
       else dualLadder is_rpi_4b (nth hubs i) (nth hubs n) n
         (scanUpTo is_rpi_4b hubs i n)) := by
  unfold scanUpTo
  rw [List.range_succ, List.foldl_append]
  rfl

/-- Invariant of the inner `j` loop: after `n` iterations the state is still
the initial `(-1, -1)` and no candidate has been seen, or it records the
first candidate attaining the maximal score among the first `n` indices. -/
theorem scanUpTo_spec (is_rpi_4b : Bool) (hubs : List hub_info) (i : Nat) : ∀ n,
    (scanUpTo is_rpi_4b hubs i n = (-1, -1) ∧ ∀ j, j < n → ¬ scanPred hubs i j) ∨
    (∃ jb, jb < n ∧
      scanUpTo is_rpi_4b hubs i n =
        ((scanScore is_rpi_4b hubs i jb : Int), (jb : Int)) ∧
      scanPred hubs i jb ∧
      (∀ j, j < n → scanPred hubs i j →
        scanScore is_rpi_4b hubs i j ≤ scanScore is_rpi_4b hubs i jb) ∧
      (∀ j, j < jb → scanPred hubs i j →
        scanScore is_rpi_4b hubs i j < scanScore is_rpi_4b hubs i jb)) := by
  intro n
  induction n with
  | zero => exact Or.inl ⟨rfl, fun j hj => absurd hj (Nat.not_lt_zero j)⟩
  | succ n ih =>
    rw [scanUpTo_succ, scanStep_eq]
    rcases ih with ⟨hst, hnone⟩ | ⟨jb, hjb, hst, hpred, hmax, hfirst⟩
    · rw [hst]
      by_cases hp : scanPred hubs i n
      · have hlt : ((-1 : Int), (-1 : Int)).1 < (scanScore is_rpi_4b hubs i n : Int) := by
          show (-1 : Int) < (scanScore is_rpi_4b hubs i n : Int)
          omega
        rw [if_pos ⟨hp, hlt⟩]
        refine Or.inr ⟨n, Nat.lt_succ_self n, rfl, hp, ?_, ?_⟩
        · intro j hj hpj
          rcases Nat.lt_succ_iff_lt_or_eq.mp hj with hj | rfl
          · exact absurd hpj (hnone j hj)
          · exact le_refl _
        · intro j hj hpj
          exact absurd hpj (hnone j hj)
      · rw [if_neg (fun hand => hp hand.1)]
        refine Or.inl ⟨rfl, fun j hj => ?_⟩
        rcases Nat.lt_succ_iff_lt_or_eq.mp hj with hj | rfl
        · exact hnone j hj
        · exact hp
    · rw [hst]
      by_cases hcond : scanPred hubs i n ∧
          (((scanScore is_rpi_4b hubs i jb : Int), (jb : Int)) : Int × Int).1 <
            (scanScore is_rpi_4b hubs i n : Int)
      · obtain ⟨hp, hlt⟩ := hcond
        have hlt0 : (scanScore is_rpi_4b hubs i jb : Int) <
            (scanScore is_rpi_4b hubs i n : Int) := hlt
        have hlt' : scanScore is_rpi_4b hubs i jb < scanScore is_rpi_4b hubs i n := by
          exact_mod_cast hlt0
        rw [if_pos ⟨hp, hlt⟩]
        refine Or.inr ⟨n, Nat.lt_succ_self n, rfl, hp, ?_, ?_⟩
        · intro j hj hpj
          rcases Nat.lt_succ_iff_lt_or_eq.mp hj with hj | rfl
          · exact le_trans (hmax j hj hpj) (le_of_lt hlt')
          · exact le_refl _
        · intro j hj hpj
          exact lt_of_le_of_lt (hmax j hj hpj) hlt'
      · rw [if_neg hcond]
        refine Or.inr ⟨jb, Nat.lt_succ_of_lt hjb, rfl, hpred, ?_, hfirst⟩
        intro j hj hpj
        rcases Nat.lt_succ_iff_lt_or_eq.mp hj with hj | rfl
        · exact hmax j hj hpj
        · have hnl : ¬ ((scanScore is_rpi_4b hubs i jb : Int) <
              (scanScore is_rpi_4b hubs i j : Int)) := fun hlt => hcond ⟨hpj, hlt⟩
          have := not_lt.mp hnl
          exact_mod_cast this

theorem scanPred_congr {l l' : List hub_info} (h : sameKeys l l') (i j : Nat) :
    scanPred l i j ↔ scanPred l' i j := by
  unfold scanPred
  rw [dualCandidate_congr (h.2 i) (h.2 j)]

theorem scanScore_congr (is_rpi_4b : Bool) {l l' : List hub_info} (h : sameKeys l l')
    (i j : Nat) : scanScore is_rpi_4b l i j = scanScore is_rpi_4b l' i j :=
  dualScore_congr is_rpi_4b (h.2 i) (h.2 j)

/-- `jp` is the candidate the §4.6 ranking selects for primary `i`: it is a
candidate, no candidate scores higher, and every earlier candidate scores
strictly lower (first-found tie-break). -/
def isBestDualPartner (is_rpi_4b : Bool) (hubs : List hub_info) (i jp : Nat) : Prop :=
  jp < hubs.length ∧ scanPred hubs i jp ∧
  (∀ j, j < hubs.length → scanPred hubs i j →
    scanScore is_rpi_4b hubs i j ≤ scanScore is_rpi_4b hubs i jp) ∧
  (∀ j, j < jp → scanPred hubs i j →
    scanScore is_rpi_4b hubs i j < scanScore is_rpi_4b hubs i jp)

theorem isBestDualPartner_congr (is_rpi_4b : Bool) {l l' : List hub_info}
    (h : sameKeys l l') (i jp : Nat) :
    isBestDualPartner is_rpi_4b l i jp ↔ isBestDualPartner is_rpi_4b l' i jp := by
  have hp : ∀ j, scanPred l i j ↔ scanPred l' i j := scanPred_congr h i
  have hs : ∀ j, scanScore is_rpi_4b l i j = scanScore is_rpi_4b l' i j :=
    scanScore_congr is_rpi_4b h i
  unfold isBestDualPartner
  rw [h.1]
  simp only [hp, hs]

/-- Case analysis of one outer-loop iteration: either nothing changes, or a
best match `b` with `actionable = 0` is promoted to 2, and `b` is exactly the
index the inner scan selected for the primary `i`. -/
theorem pairStep_cases (is_rpi_4b : Bool) (l : List hub_info) (i : Nat) :
    pairStep is_rpi_4b l i = l ∨
    ∃ b, b < l.length ∧ (nth l b).actionable = 0 ∧ (nth l i).actionable = 1 ∧
      (nth l i).container_id ≠ "" ∧ (innerScan is_rpi_4b l i).2 = (b : Int) ∧
      scanPred l i b ∧ isBestDualPartner is_rpi_4b l i b ∧
      pairStep is_rpi_4b l i = l.set b { nth l b with actionable := 2 } := by
  unfold pairStep
  by_cases ha : (nth l i).actionable ≠ 1
  · rw [if_pos ha]; exact Or.inl rfl
  rw [if_neg ha]
  push_neg at ha
  by_cases hc : (nth l i).container_id = ""
  · rw [if_pos hc]; exact Or.inl rfl
  rw [if_neg hc]
  by_cases hbm : 0 ≤ (innerScan is_rpi_4b l i).2
  case neg => rw [if_neg hbm]; exact Or.inl rfl
  rw [if_pos hbm]
  rcases scanUpTo_spec is_rpi_4b l i l.length with ⟨hst, -⟩ | ⟨jb, hjb, hst, hpred, hmax, hfirst⟩
  · exfalso
    unfold innerScan at hbm
    rw [hst] at hbm
    exact absurd hbm (by decide)
  · have h2 : (innerScan is_rpi_4b l i).2 = (jb : Int) := by
      unfold innerScan; rw [hst]
    have htn : (innerScan is_rpi_4b l i).2.toNat = jb := by
      rw [h2]; exact Int.toNat_natCast jb
    by_cases hb0 : (nth l ((innerScan is_rpi_4b l i).2.toNat)).actionable = 0
    · rw [if_pos hb0, htn]
      rw [htn] at hb0
      exact Or.inr ⟨jb, hjb, hb0, ha, hc, h2, hpred, ⟨hjb, hpred, hmax, hfirst⟩, rfl⟩
    · rw [if_neg hb0]; exact Or.inl rfl

theorem sameKeys_pairStep (is_rpi_4b : Bool) (l : List hub_info) (i : Nat) :
    sameKeys (pairStep is_rpi_4b l i) l := by
  rcases pairStep_cases is_rpi_4b l i with he | ⟨b, hb, -, -, -, -, -, -, he⟩
  · rw [he]; exact sameKeys_refl l
  · rw [he]; exact sameKeys_set l b _ hb (hubKey_update_actionable _ 2)

/-- The invariant the duality pass maintains: every derived partner
(`actionable = 2`) has a primary (`actionable = 1`) with equal non-empty
container id and opposite super-speed flag, for which it is the selected best
candidate of the scan. -/
def pairInv (is_rpi_4b : Bool) (st : List hub_info) : Prop :=
  ∀ jp, jp < st.length → (nth st jp).actionable = 2 →
    ∃ i, i < st.length ∧ (nth st i).actionable = 1 ∧
      (nth st i).container_id = (nth st jp).container_id ∧
      (nth st jp).container_id ≠ "" ∧
      (nth st i).super_speed ≠ (nth st jp).super_speed ∧
      isBestDualPartner is_rpi_4b st i jp ∧
      (innerScan is_rpi_4b st i).2 = (jp : Int)

theorem default_actionable : (default : hub_info).actionable = 0 := rfl

theorem pairStep_inv (is_rpi_4b : Bool) (l : List hub_info) (i : Nat)
    (hinv : pairInv is_rpi_4b l) : pairInv is_rpi_4b (pairStep is_rpi_4b l i) := by
  rcases pairStep_cases is_rpi_4b l i with he | ⟨b, hb, hb0, hai, hci, hscan, hpred, hbest, he⟩
  · rw [he]; exact hinv
  rw [he]
  have hsk : sameKeys (l.set b { nth l b with actionable := 2 }) l :=
    sameKeys_set l b _ hb (hubKey_update_actionable _ 2)
  have hnth : ∀ k, k ≠ b → nth (l.set b { nth l b with actionable := 2 }) k = nth l k :=
    fun k hk => nth_set_ne l b _ k hk
  have hnthb : nth (l.set b { nth l b with actionable := 2 }) b =
      { nth l b with actionable := 2 } := nth_set_self l b _ hb
  have hib : i ≠ b := by
    intro he'
    rw [he'] at hai
    omega
  intro jp hjp hact2
  by_cases hjpb : jp = b
  · subst hjpb
    obtain ⟨hne, hcand⟩ := hpred
    refine ⟨i, ?_, ?_, ?_, ?_, ?_, ?_, ?_⟩
    · rw [hsk.1]
      by_contra hil
      push_neg at hil
      rw [nth_default_of_le l i hil, default_actionable] at hai
      exact absurd hai (by decide)
    · rw [hnth i hib]; exact hai
    · rw [hnth i hib, hnthb]
      exact hcand.2.2.1
    · rw [hnthb]
      exact hcand.2.1
    · rw [hnth i hib, hnthb]
      exact hcand.1
    · exact (isBestDualPartner_congr is_rpi_4b hsk i jp).mpr hbest
    · rw [innerScan_congr is_rpi_4b i hsk]
      exact hscan
  · have hjp' : jp < l.length := by rw [hsk.1] at hjp; exact hjp
    have hact2' : (nth l jp).actionable = 2 := by rw [hnth jp hjpb] at hact2; exact hact2
    obtain ⟨i0, hi0, ha0, hc0, hne0, hss0, hbest0, hscan0⟩ := hinv jp hjp' hact2'
    have hi0b : i0 ≠ b := by
      intro he'
      rw [he'] at ha0
      omega
    refine ⟨i0, ?_, ?_, ?_, ?_, ?_, ?_, ?_⟩
    · rw [hsk.1]; exact hi0
    · rw [hnth i0 hi0b]; exact ha0
    · rw [hnth i0 hi0b, hnth jp hjpb]; exact hc0
    · rw [hnth jp hjpb]; exact hne0
    · rw [hnth i0 hi0b, hnth jp hjpb]; exact hss0
    · exact (isBestDualPartner_congr is_rpi_4b hsk i0 jp).mpr hbest0
    · rw [innerScan_congr is_rpi_4b i0 hsk]
      exact hscan0

theorem pairInv_foldl (is_rpi_4b : Bool) :
    ∀ (idxs : List Nat) (l : List hub_info), pairInv is_rpi_4b l →
      pairInv is_rpi_4b (idxs.foldl (pairStep is_rpi_4b) l) := by
  intro idxs
  induction idxs with
  | nil => intro l h; exact h
  | cons i t ih =>
    intro l h
    exact ih (pairStep is_rpi_4b l i) (pairStep_inv is_rpi_4b l i h)

theorem sameKeys_foldl_pairStep (is_rpi_4b : Bool) :
    ∀ (idxs : List Nat) (l : List hub_info),
      sameKeys (idxs.foldl (pairStep is_rpi_4b) l) l := by
  intro idxs
  induction idxs with
  | nil => intro l; exact sameKeys_refl l
  | cons i t ih =>
    intro l
    exact sameKeys_trans (ih (pairStep is_rpi_4b l i)) (sameKeys_pairStep is_rpi_4b l i)

theorem sameKeys_pairPhase (is_rpi_4b : Bool) (l : List hub_info) :
    sameKeys (pairPhase is_rpi_4b l) l :=
  sameKeys_foldl_pairStep is_rpi_4b (List.range l.length) l

theorem pairInv_init (is_rpi_4b : Bool) (l : List hub_info)
    (h01 : ∀ h ∈ l, h.actionable = 0 ∨ h.actionable = 1) : pairInv is_rpi_4b l := by
  intro jp hjp hact2
  rcases h01 (nth l jp) (nth_mem l jp hjp) with h | h <;> omega

theorem pairPhase_inv (is_rpi_4b : Bool) (l : List hub_info)
    (h01 : ∀ h ∈ l, h.actionable = 0 ∨ h.actionable = 1) :
    pairInv is_rpi_4b (pairPhase is_rpi_4b l) :=
  pairInv_foldl is_rpi_4b (List.range l.length) l (pairInv_init is_rpi_4b l h01)

/-! ### Shape of the discovery output -/

theorem filter_act_01 (fo : FilterOpts) (devs : List RawDev) (info : hub_info) :
    filter_act fo devs info = 0 ∨ filter_act fo devs info = 1 := by
  unfold filter_act
  by_cases h1 : fo.opt_search ≠ ""
  · simp only [if_pos h1]
    cases hsc : searchScan fo.opt_search info.bus info.port_numbers devs <;>
      split_ifs <;> simp
  · simp only [if_neg h1]
    split_ifs <;> simp

/-- Every hub the discovery loop appends is built by `get_hub_info` from
some device, with `actionable` computed by the filter block, and (unless
`force`) with per-port power switching. -/
theorem scan_mem_shape (is_rpi_4b is_rpi_5 force : Bool) (fo : FilterOpts)
    (devs : List RawDev) :
    ∀ (rest : List RawDev) (hubs0 : List hub_info) (ports : Nat) (h : hub_info),
      h ∈ (usb_find_hubs_scan is_rpi_4b is_rpi_5 force fo devs rest hubs0 ports).1 →
      h ∈ hubs0 ∨
      ∃ d : RawDev,
        h = { get_hub_info is_rpi_4b is_rpi_5 d with
                actionable := filter_act fo devs (get_hub_info is_rpi_4b is_rpi_5 d) } ∧
        (force = false →
          (get_hub_info is_rpi_4b is_rpi_5 d).lpsm = HUB_CHAR_INDV_PORT_LPSM) := by
  intro rest
  induction rest with
  | nil =>
    intro hubs0 ports h hmem
    exact Or.inl hmem
  | cons d rest ih =>
    intro hubs0 ports h hmem
    simp only [usb_find_hubs_scan] at hmem
    by_cases h1 : d.is_hub = false
    · rw [if_pos h1] at hmem; exact ih hubs0 ports h hmem
    rw [if_neg h1] at hmem
    by_cases h2 : d.info_ok = false
    · rw [if_pos h2] at hmem; exact ih hubs0 ports h hmem
    rw [if_neg h2] at hmem
    by_cases h3 : (get_hub_info is_rpi_4b is_rpi_5 d).lpsm ≠ HUB_CHAR_INDV_PORT_LPSM ∧
        force = false
    · rw [if_pos h3] at hmem; exact ih hubs0 ports h hmem
    rw [if_neg h3] at hmem
    have hlp : force = false → (get_hub_info is_rpi_4b is_rpi_5 d).lpsm =
        HUB_CHAR_INDV_PORT_LPSM := by
      intro hf
      by_contra hne
      exact h3 ⟨hne, hf⟩
    by_cases h4 : hubs0.length < MAX_HUBS
    · rw [if_pos h4] at hmem
      rcases ih _ _ h hmem with hin | hshape
      · rcases List.mem_append.mp hin with hin | hin
        · exact Or.inl hin
        · exact Or.inr ⟨d, List.mem_singleton.mp hin, hlp⟩
      · exact Or.inr hshape
    · rw [if_neg h4] at hmem
      exact Or.inl hmem

/-- Filter-stage hubs have `actionable` 0 or 1. -/
theorem filter_output_act01 (is_rpi_4b is_rpi_5 force : Bool) (fo : FilterOpts)
    (p0 : Nat) (devs : List RawDev) :
    ∀ h ∈ (usb_find_hubs_filter is_rpi_4b is_rpi_5 force fo p0 devs).1,
      h.actionable = 0 ∨ h.actionable = 1 := by
  intro h hmem
  rcases scan_mem_shape is_rpi_4b is_rpi_5 force fo devs devs [] p0 h hmem with hin | ⟨d, rfl, -⟩
  · simp at hin
  · exact filter_act_01 fo devs (get_hub_info is_rpi_4b is_rpi_5 d)

/-- Filter-stage hubs are per-port power switched when `force` is unset. -/
theorem filter_output_lpsm (is_rpi_4b is_rpi_5 : Bool) (fo : FilterOpts)
    (p0 : Nat) (devs : List RawDev) :
    ∀ h ∈ (usb_find_hubs_filter is_rpi_4b is_rpi_5 false fo p0 devs).1,
      h.lpsm = HUB_CHAR_INDV_PORT_LPSM := by
  intro h hmem
  rcases scan_mem_shape is_rpi_4b is_rpi_5 false fo devs devs [] p0 h hmem with hin | ⟨d, rfl, hlp⟩
  · simp at hin
  · exact hlp rfl

theorem pair_output_lpsm (is_rpi_4b is_rpi_5 : Bool) (fo : FilterOpts) (p0 : Nat)
    (devs : List RawDev) :
    ∀ h ∈ pairPhase is_rpi_4b (usb_find_hubs_filter is_rpi_4b is_rpi_5 false fo p0 devs).1,
      h.lpsm = HUB_CHAR_INDV_PORT_LPSM := by
  intro h hmem
  obtain ⟨k, hk, hnth⟩ := mem_nth _ h hmem
  have hsk := sameKeys_pairPhase is_rpi_4b
    (usb_find_hubs_filter is_rpi_4b is_rpi_5 false fo p0 devs).1
  have hk' : k < (usb_find_hubs_filter is_rpi_4b is_rpi_5 false fo p0 devs).1.length := by
    rw [← hsk.1]; exact hk
  have hlp := filter_output_lpsm is_rpi_4b is_rpi_5 fo p0 devs _ (nth_mem _ k hk')
  rw [← hnth, hubKey_lpsm_eq (hsk.2 k), hlp]

/-- Fixture: a single-port hub reporting GANGED power switching. -/
def devGanged1 : RawDev :=
  { is_hub := true, info_ok := true, desc_ok := true, bcd_usb := 0x0200, hub_char0 := 0x00,
    nports := 1, vendor := "04b4:6560", container_id := "", bus := 1, port_numbers := [],
    serial := "", description := "04b4:6560 single port hub" }

/-- Claim C6: if a hub's logical power switching mode is not per-port and
`force` is unset, it never appears in the actionable set; the mode comes from
bits 0-1 of `wHubCharacteristics`, except that a single-port GANGED hub is
reclassified to PER_PORT — and such a hub can be actionable. -/
theorem C6_lpsm_gate :
    (∀ (is_rpi_4b is_rpi_5 opt_exact : Bool) (fo : FilterOpts) (p0 : Nat)
        (devs : List RawDev),
      ∀ h ∈ (usb_find_hubs is_rpi_4b is_rpi_5 false opt_exact fo p0 devs).1,
        h.actionable ≠ 0 → h.lpsm = HUB_CHAR_INDV_PORT_LPSM) ∧
    (∀ (hub_char0 nports : Nat) (vendor : String),
      get_hub_lpsm false hub_char0 nports vendor =
        if hub_char0 &&& HUB_CHAR_LPSM = HUB_CHAR_COMMON_LPSM ∧ nports = 1 then
          HUB_CHAR_INDV_PORT_LPSM
        else hub_char0 &&& HUB_CHAR_LPSM) ∧
    ((nth (usb_find_hubs false false false false noFilter ALL_HUB_PORTS [devGanged1]).1
        0).lpsm = HUB_CHAR_INDV_PORT_LPSM ∧
      (nth (usb_find_hubs false false false false noFilter ALL_HUB_PORTS [devGanged1]).1
        0).actionable = 1) := by
  refine ⟨?_, ?_, by decide, by decide⟩
  · intro is_rpi_4b is_rpi_5 opt_exact fo p0 devs h hmem _
    cases opt_exact with
    | true => exact filter_output_lpsm is_rpi_4b is_rpi_5 fo p0 devs h hmem
    | false => exact pair_output_lpsm is_rpi_4b is_rpi_5 fo p0 devs h hmem
  · intro hub_char0 nports vendor
    simp [get_hub_lpsm]

theorem C6_lpsm_gate_witness :
    ((nth (usb_find_hubs false false false false noFilter ALL_HUB_PORTS [devGanged1]).1 0 ∈
        (usb_find_hubs false false false false noFilter ALL_HUB_PORTS [devGanged1]).1) ∧
      (nth (usb_find_hubs false false false false noFilter ALL_HUB_PORTS
        [devGanged1]).1 0).actionable ≠ 0) ∧
    (nth (usb_find_hubs false false false false noFilter ALL_HUB_PORTS
      [devGanged1]).1 0).lpsm = HUB_CHAR_INDV_PORT_LPSM :=
  ⟨⟨by decide, by decide⟩,
   C6_lpsm_gate.1 false false false noFilter ALL_HUB_PORTS [devGanged1] _
     (by decide) (by decide)⟩

/-- Claim C1: after discovery and pairing with the exact option unset, every
hub with `actionable = 2` has a primary partner with `actionable = 1`, equal
non-empty container id, opposite super-speed flag, for which it was the
best-scoring candidate of the §4.6 ranking (scores 1 to 5, higher wins,
first-found tie-break), and indeed the index the inner scan selected. -/
theorem C1_derived_partner_best (is_rpi_4b is_rpi_5 force : Bool) (fo : FilterOpts)
    (p0 : Nat) (devs : List RawDev) :
    ∀ jp, jp < (usb_find_hubs is_rpi_4b is_rpi_5 force false fo p0 devs).1.length →
      (nth (usb_find_hubs is_rpi_4b is_rpi_5 force false fo p0 devs).1 jp).actionable = 2 →
      ∃ i, i < (usb_find_hubs is_rpi_4b is_rpi_5 force false fo p0 devs).1.length ∧
        (nth (usb_find_hubs is_rpi_4b is_rpi_5 force false fo p0 devs).1 i).actionable = 1 ∧
        (nth (usb_find_hubs is_rpi_4b is_rpi_5 force false fo p0 devs).1 i).container_id =
          (nth (usb_find_hubs is_rpi_4b is_rpi_5 force false fo p0 devs).1 jp).container_id ∧
        (nth (usb_find_hubs is_rpi_4b is_rpi_5 force false fo p0 devs).1
          jp).container_id ≠ "" ∧
        (nth (usb_find_hubs is_rpi_4b is_rpi_5 force false fo p0 devs).1 i).super_speed ≠
          (nth (usb_find_hubs is_rpi_4b is_rpi_5 force false fo p0 devs).1 jp).super_speed ∧
        isBestDualPartner is_rpi_4b
          (usb_find_hubs is_rpi_4b is_rpi_5 force false fo p0 devs).1 i jp ∧
        (innerScan is_rpi_4b (usb_find_hubs is_rpi_4b is_rpi_5 force false fo p0 devs).1
          i).2 = (jp : Int) :=
  pairPhase_inv is_rpi_4b (usb_find_hubs_filter is_rpi_4b is_rpi_5 force fo p0 devs).1
    (filter_output_act01 is_rpi_4b is_rpi_5 force fo p0 devs)

/-- Fixture for the pairing invariant: a USB2 hub at location 1-1 selected
by the location filter, and its USB3 twin (matching container id) on bus 2,
which the filter rejects and the duality pass promotes to `actionable = 2`. -/
def devU2 : RawDev :=
  { is_hub := true, info_ok := true, desc_ok := true, bcd_usb := 0x0210, hub_char0 := 0x09,
    nports := 4, vendor := "2109:2817", container_id := "f0abcd", bus := 1,
    port_numbers := [1], serial := "", description := "2109:2817 VIA USB2 hub" }

def devU3 : RawDev :=
  { is_hub := true, info_ok := true, desc_ok := true, bcd_usb := 0x0310, hub_char0 := 0x09,
    nports := 4, vendor := "2109:0817", container_id := "f0abcd", bus := 2,
    port_numbers := [1], serial := "", description := "2109:0817 VIA USB3 hub" }

def foLoc : FilterOpts :=
  { opt_location := "1-1", opt_level := 0, opt_vendor := "", opt_search := "",
    opt_searchhub := "" }

theorem C1_derived_partner_best_witness :
    (1 < (usb_find_hubs false false false false foLoc ALL_HUB_PORTS [devU2, devU3]).1.length ∧
      (nth (usb_find_hubs false false false false foLoc ALL_HUB_PORTS
        [devU2, devU3]).1 1).actionable = 2) ∧
    (∃ i, i < (usb_find_hubs false false false false foLoc ALL_HUB_PORTS
          [devU2, devU3]).1.length ∧
      (nth (usb_find_hubs false false false false foLoc ALL_HUB_PORTS
        [devU2, devU3]).1 i).actionable = 1 ∧
      (nth (usb_find_hubs false false false false foLoc ALL_HUB_PORTS
        [devU2, devU3]).1 i).container_id =
        (nth (usb_find_hubs false false false false foLoc ALL_HUB_PORTS
          [devU2, devU3]).1 1).container_id ∧
      (nth (usb_find_hubs false false false false foLoc ALL_HUB_PORTS
        [devU2, devU3]).1 1).container_id ≠ "" ∧
      (nth (usb_find_hubs false false false false foLoc ALL_HUB_PORTS
        [devU2, devU3]).1 i).super_speed ≠
        (nth (usb_find_hubs false false false false foLoc ALL_HUB_PORTS
          [devU2, devU3]).1 1).super_speed ∧
      isBestDualPartner false
        (usb_find_hubs false false false false foLoc ALL_HUB_PORTS [devU2, devU3]).1 i 1 ∧
      (innerScan false (usb_find_hubs false false false false foLoc ALL_HUB_PORTS
        [devU2, devU3]).1 i).2 = (1 : Int)) :=
  ⟨⟨by decide, by decide⟩,
   C1_derived_partner_best false false false foLoc ALL_HUB_PORTS [devU2, devU3] 1
     (by decide) (by decide)⟩

/-! ### The attached-device search filter (claim C7) -/

/-- Boolean form of "device `u` is an immediate child of the hub at
`(bus, pns)` whose description contains `s`". -/
def childMatchB (s : String) (bus : Nat) (pns : List Nat) (u : RawDev) : Bool :=
  u.bus == bus && u.port_numbers.length == pns.length + 1 &&
    u.port_numbers.take pns.length == pns && strstrB u.description s

/-- When every description read succeeds, the search loop returns the first
matching child in enumeration order (and nothing else). -/
theorem searchScan_eq_find (s : String) (bus : Nat) (pns : List Nat) :
    ∀ ds : List RawDev, (∀ u ∈ ds, u.desc_ok = true) →
      searchScan s bus pns ds =
        (match ds.find? (childMatchB s bus pns) with
        | some u => SearchOutcome.found (u.port_numbers.getLastD 0)
        | none => SearchOutcome.nomatch) := by
  intro ds
  induction ds with
  | nil => intro _; rfl
  | cons u rest ih =>
    intro hdesc
    have hu : u.desc_ok = true := hdesc u (List.mem_cons_self u rest)
    have hrest : ∀ v ∈ rest, v.desc_ok = true := fun v hv =>
      hdesc v (List.mem_cons_of_mem u hv)
    rw [searchScan]
    by_cases hb : u.bus = bus
    case neg =>
      have hpu : ¬ (childMatchB s bus pns u = true) := by
        simp [childMatchB, hb]
      rw [if_pos hb, List.find?_cons_of_neg rest hpu]
      exact ih hrest
    case pos =>
      rw [if_neg (fun hne => hne hb)]
      by_cases hp : u.port_numbers.length = pns.length + 1 ∧
          u.port_numbers.take pns.length = pns
      case neg =>
        have hpu : ¬ (childMatchB s bus pns u = true) := by
          unfold childMatchB
          by_cases hl : u.port_numbers.length = pns.length + 1
          · have ht : ¬ u.port_numbers.take pns.length = pns := fun ht => hp ⟨hl, ht⟩
            simp [hb, hl, ht]
          · simp [hb, hl]
        rw [if_neg hp, List.find?_cons_of_neg rest hpu]
        exact ih hrest
      case pos =>
        rw [if_pos hp, if_neg (show ¬ (u.desc_ok = false) by simp [hu])]
        by_cases hs2 : strstrB u.description s = true
        · have hpu : childMatchB s bus pns u = true := by
            simp [childMatchB, hb, hp.1, hp.2, hs2]
          rw [if_pos hs2, List.find?_cons_of_pos rest hpu]
        · have hpu : ¬ (childMatchB s bus pns u = true) := by
            simp only [childMatchB, Bool.and_eq_true, beq_iff_eq]
            rintro ⟨-, hss⟩
            exact hs2 hss
          rw [if_neg hs2, List.find?_cons_of_neg rest hpu]
          exact ih hrest

theorem filter_act_search_only (fo : FilterOpts) (devs : List RawDev) (info : hub_info)
    (hs : fo.opt_search ≠ "") (hsh : fo.opt_searchhub = "") (hl : fo.opt_location = "")
    (hlev : fo.opt_level ≤ 0) (hv : fo.opt_vendor = "") :
    filter_act fo devs info =
      (match searchScan fo.opt_search info.bus info.port_numbers devs with
      | SearchOutcome.found _ => 1
      | _ => 0) := by
  have c2 : ¬(fo.opt_searchhub ≠ "" ∧ strstrB info.description fo.opt_searchhub = false) :=
    fun hand => hand.1 hsh
  have c3 : ¬(fo.opt_location ≠ "" ∧ strcaseEq fo.opt_location info.location = false) :=
    fun hand => hand.1 hl
  have c4 : ¬(0 < fo.opt_level ∧ fo.opt_level ≠ (info.port_numbers.length + 1 : Int)) :=
    fun hand => absurd hand.1 (by omega)
  have c5 : ¬(fo.opt_vendor ≠ "" ∧ strncaseEq fo.opt_vendor info.vendor = false) :=
    fun hand => hand.1 hv
  unfold filter_act
  simp only [if_pos hs, if_neg c2, if_neg c3, if_neg c4, if_neg c5]

/-- With only the search filter active, a hub record passes the filter block
iff some immediate child matches the search string. -/
theorem filter_act_search_iff (fo : FilterOpts) (devs : List RawDev) (info : hub_info)
    (hs : fo.opt_search ≠ "") (hsh : fo.opt_searchhub = "") (hl : fo.opt_location = "")
    (hlev : fo.opt_level ≤ 0) (hv : fo.opt_vendor = "")
    (hdesc : ∀ u ∈ devs, u.desc_ok = true) :
    filter_act fo devs info = 1 ↔ ∃ u ∈ devs, u.bus = info.bus ∧
      u.port_numbers.length = info.port_numbers.length + 1 ∧
      u.port_numbers.take info.port_numbers.length = info.port_numbers ∧
      strstrB u.description fo.opt_search = true := by
  rw [filter_act_search_only fo devs info hs hsh hl hlev hv,
    searchScan_eq_find fo.opt_search info.bus info.port_numbers devs hdesc]
  cases hfind : devs.find? (childMatchB fo.opt_search info.bus info.port_numbers) with
  | some u =>
    have humem := List.mem_of_find?_eq_some hfind
    have hpu := List.find?_some hfind
    simp only [childMatchB, Bool.and_eq_true, beq_iff_eq] at hpu
    exact iff_of_true rfl ⟨u, humem, hpu.1.1.1, hpu.1.1.2, hpu.1.2, hpu.2⟩
  | none =>
    refine iff_of_false (by decide) ?_
    rintro ⟨u, humem, hub, hulen, hutake, hustr⟩
    have hnone := List.find?_eq_none.mp hfind u humem
    simp only [childMatchB, Bool.and_eq_true, beq_iff_eq] at hnone
    exact hnone ⟨⟨⟨hub, hulen⟩, hutake⟩, hustr⟩

/-- Claim C7 (amended): with the search option set and no other filter, a hub
passes the filter phase iff some immediate child on the same bus has a
description containing the search string, and `opt_ports` is ANDed with the
single-bit mask of the *first* matching child's port. -/
theorem C7_search_filter (is_rpi_4b is_rpi_5 force : Bool) (fo : FilterOpts) (p0 : Nat)
    (devs : List RawDev)
    (hs : fo.opt_search ≠ "") (hsh : fo.opt_searchhub = "") (hl : fo.opt_location = "")
    (hlev : fo.opt_level ≤ 0) (hv : fo.opt_vendor = "")
    (hdesc : ∀ u ∈ devs, u.desc_ok = true) :
    (∀ h ∈ (usb_find_hubs_filter is_rpi_4b is_rpi_5 force fo p0 devs).1,
      (h.actionable = 1 ↔ ∃ u ∈ devs, u.bus = h.bus ∧
        u.port_numbers.length = h.port_numbers.length + 1 ∧
        u.port_numbers.take h.port_numbers.length = h.port_numbers ∧
        strstrB u.description fo.opt_search = true)) ∧
    (∀ (info : hub_info) (ports : Nat),
      filter_ports fo devs info ports =
        (match devs.find? (childMatchB fo.opt_search info.bus info.port_numbers) with
        | some u => ports &&& (1 <<< (u.port_numbers.getLastD 0 - 1))
        | none => ports)) := by
  constructor
  · intro h hmem
    rcases scan_mem_shape is_rpi_4b is_rpi_5 force fo devs devs [] p0 h hmem with
      hin | ⟨d, rfl, -⟩
    · simp at hin
    · exact filter_act_search_iff fo devs (get_hub_info is_rpi_4b is_rpi_5 d)
        hs hsh hl hlev hv hdesc
  · intro info ports
    unfold filter_ports
    rw [if_pos hs, searchScan_eq_find fo.opt_search info.bus info.port_numbers devs hdesc]
    cases hfind : devs.find? (childMatchB fo.opt_search info.bus info.port_numbers) <;>
      simp

/-- Fixture: a root hub on bus 1 with two attached devices on ports 1 and 2,
both of whose descriptions contain the search string "XKEY". -/
def devHub7 : RawDev :=
  { is_hub := true, info_ok := true, desc_ok := true, bcd_usb := 0x0200, hub_char0 := 0x09,
    nports := 4, vendor := "2001:f103", container_id := "", bus := 1, port_numbers := [],
    serial := "", description := "2001:f103 D-Link hub" }

def devChildA : RawDev :=
  { is_hub := false, info_ok := false, desc_ok := true, bcd_usb := 0x0200, hub_char0 := 0,
    nports := 0, vendor := "0781:5583", container_id := "", bus := 1, port_numbers := [1],
    serial := "", description := "0781:5583 SanDisk XKEY stick A" }

def devChildB : RawDev :=
  { is_hub := false, info_ok := false, desc_ok := true, bcd_usb := 0x0200, hub_char0 := 0,
    nports := 0, vendor := "0781:5583", container_id := "", bus := 1, port_numbers := [2],
    serial := "", description := "0781:5583 SanDisk XKEY stick B" }

def fo7 : FilterOpts :=
  { opt_location := "", opt_level := 0, opt_vendor := "", opt_search := "XKEY",
    opt_searchhub := "" }

/-- Claim C7 (counterexample): with two matching children on ports 1 and 2,
the search loop breaks at the *first* match, leaving `opt_ports = 0b01`
(port 1), not `0b10` (port 2) as "last matching port selected" requires. -/
theorem C7_counterexample :
    (usb_find_hubs_filter false false false fo7 ALL_HUB_PORTS
      [devHub7, devChildA, devChildB]).2 = 1 ∧
    (usb_find_hubs_filter false false false fo7 ALL_HUB_PORTS
      [devHub7, devChildA, devChildB]).2 ≠ 2 ∧
    childMatchB "XKEY" 1 [] devChildA = true ∧ devChildA.port_numbers = [1] ∧
    childMatchB "XKEY" 1 [] devChildB = true ∧ devChildB.port_numbers = [2] :=
  ⟨by decide, by decide, by decide, by decide, by decide, by decide⟩

theorem C7_search_filter_witness :
    ((fo7.opt_search ≠ "") ∧ fo7.opt_searchhub = "" ∧ fo7.opt_location = "" ∧
      fo7.opt_level ≤ 0 ∧ fo7.opt_vendor = "" ∧
      ∀ u ∈ [devHub7, devChildA, devChildB], u.desc_ok = true) ∧
    filter_ports fo7 [devHub7, devChildA, devChildB] (get_hub_info false false devHub7)
        ALL_HUB_PORTS =
      (match [devHub7, devChildA, devChildB].find?
          (childMatchB fo7.opt_search (get_hub_info false false devHub7).bus
            (get_hub_info false false devHub7).port_numbers) with
      | some u => ALL_HUB_PORTS &&& (1 <<< (u.port_numbers.getLastD 0 - 1))
      | none => ALL_HUB_PORTS) :=
  ⟨⟨by decide, rfl, rfl, by decide, rfl, by decide⟩,
   (C7_search_filter false false false fo7 ALL_HUB_PORTS [devHub7, devChildA, devChildB]
     (by decide) rfl rfl (by decide) rfl (by decide)).2
     (get_hub_info false false devHub7) ALL_HUB_PORTS⟩

end Uhubctl
